import Mathlib

/-!
Shallow embedding of the Shade payment-protocol contract
(contracts/shade: invoice engine, signed-invoice path, subscription engine)
together with the external collaborators the spec names (fungible token,
merchant escrow account) and the components whose sources are absent from
the tree (pause, access control, admin/token registry, merchant registry),
the latter modelled from the spec.  Theorems at the end settle the frozen
claims about the code.
-/

namespace Shade

/-- Ledger addresses, abstracted to naturals. -/
abbrev Address := Nat

/-- Ledger timestamps (u64 seconds). -/
abbrev Timestamp := Nat

/-- The contract error enum of contracts/shade/src/errors.rs, variants in
source order. -/
inductive ContractError where
  | notAuthorized
  | alreadyInitialized
  | notInitialized
  | reentrancy
  | merchantAlreadyRegistered
  | merchantNotFound
  | invalidAmount
  | invoiceNotFound
  | contractPaused
  | contractNotPaused
  | merchantKeyNotFound
  | tokenNotAccepted
  | invalidSignature
  | nonceAlreadyUsed
  | merchantAccountNotFound
  | invalidInvoiceStatus
  | refundPeriodExpired
  | wasmHashNotSet
  | invoiceAlreadyPaid
  | merchantAccountNotSet
  deriving DecidableEq, Repr

/-- The numeric ABI code of each error variant, as assigned in errors.rs. -/
def ContractError.code : ContractError → Nat
  | .notAuthorized => 1
  | .alreadyInitialized => 2
  | .notInitialized => 3
  | .reentrancy => 4
  | .merchantAlreadyRegistered => 5
  | .merchantNotFound => 6
  | .invalidAmount => 7
  | .invoiceNotFound => 8
  | .contractPaused => 9
  | .contractNotPaused => 10
  | .merchantKeyNotFound => 11
  | .tokenNotAccepted => 12
  | .invalidSignature => 13
  | .nonceAlreadyUsed => 14
  | .merchantAccountNotFound => 15
  | .invalidInvoiceStatus => 16
  | .refundPeriodExpired => 17
  | .wasmHashNotSet => 18
  | .invoiceAlreadyPaid => 19
  | .merchantAccountNotSet => 20

/-- All variants of the error enum, in source order. -/
def ContractError.all : List ContractError :=
  [.notAuthorized, .alreadyInitialized, .notInitialized, .reentrancy,
   .merchantAlreadyRegistered, .merchantNotFound, .invalidAmount,
   .invoiceNotFound, .contractPaused, .contractNotPaused,
   .merchantKeyNotFound, .tokenNotAccepted, .invalidSignature,
   .nonceAlreadyUsed, .merchantAccountNotFound, .invalidInvoiceStatus,
   .refundPeriodExpired, .wasmHashNotSet, .invoiceAlreadyPaid,
   .merchantAccountNotSet]

/-- Transaction-level failures: declared contract errors, error names that
component sources reference without a declaration in errors.rs, and
host/external failures (authorization, crypto, the token contract, the
escrow account contract). -/
inductive TxError where
  | contractErr (e : ContractError)
  | invoiceExpired
  | invalidInterval
  | entryNotFound
  | planNotActive
  | subscriptionNotActive
  | intervalNotElapsed
  | authRequired (a : Address)
  | cryptoVerifyFailed
  | negativeAmount
  | insufficientBalance
  | insufficientAllowance
  | accountRestricted
  deriving DecidableEq, Repr

/-- Invoice status, the union schema the invoice component uses
(types.rs stable codes 0..4 plus PartiallyPaid). -/
inductive InvoiceStatus where
  | pending
  | paid
  | cancelled
  | refunded
  | partiallyRefunded
  | partiallyPaid
  deriving DecidableEq, Repr, Inhabited

/-- Subscription status (types.rs). -/
inductive SubscriptionStatus where
  | active
  | cancelled
  deriving DecidableEq, Repr

/-- Roles of the access-control component (types.rs). -/
inductive Role where
  | admin
  | manager
  | operator
  deriving DecidableEq, Repr

/-- Invoice entity, the union schema used by components/invoice.rs
(types.rs plus the amount_paid and expires_at fields the component reads
and writes). -/
structure Invoice where
  id : Nat
  description : String
  amount : Int
  token : Address
  status : InvoiceStatus
  merchantId : Nat
  payer : Option Address
  dateCreated : Timestamp
  datePaid : Option Timestamp
  amountPaid : Int
  amountRefunded : Int
  expiresAt : Option Timestamp
  deriving DecidableEq, Repr, Inhabited

/-- Subscription plan entity (types.rs / components/subscription.rs). -/
structure SubscriptionPlan where
  id : Nat
  merchant : Address
  token : Address
  amount : Int
  interval : Nat
  active : Bool
  deriving DecidableEq, Repr

/-- Subscription entity (types.rs / components/subscription.rs). -/
structure Subscription where
  id : Nat
  planId : Nat
  customer : Address
  lastChargeDate : Nat
  status : SubscriptionStatus
  deriving DecidableEq, Repr

end Shade

namespace Shade

deriving instance DecidableEq for Except

/-! ### Storage: association-list maps -/

/-- First-match lookup in an association list (the keyed persistent store). -/
def assocGet {α β : Type} [DecidableEq α] (k : α) : List (α × β) → Option β
  | [] => none
  | (k₂, v) :: rest => if k = k₂ then some v else assocGet k rest

/-- Storage write: a fresh binding shadows any earlier one. -/
def assocSet {α β : Type} [DecidableEq α] (k : α) (v : β) (l : List (α × β)) :
    List (α × β) :=
  (k, v) :: l

/-- The full persistent storage of the Shade contract, one field per DataKey
family, together with the external token and escrow state the operations
touch (balances, allowances, restriction flags — external collaborators,
modelled from the spec). -/
structure ContractState where
  admin : Option Address
  paused : Bool
  acceptedTokens : List Address
  tokenFee : List (Address × Int)
  feeBps : List (Address × Int)
  merchantIds : List (Address × Nat)
  merchantAccounts : List (Nat × Address)
  merchantKeys : List (Address × List Nat)
  managerRoles : List Address
  operatorRoles : List Address
  usedNonces : List ((Address × List Nat) × Bool)
  invoices : List (Nat × Invoice)
  invoiceCount : Nat
  plans : List (Nat × SubscriptionPlan)
  planCount : Nat
  subs : List (Nat × Subscription)
  subCount : Nat
  balances : List ((Address × Address) × Int)
  allowances : List ((Address × Address × Address) × Int)
  restrictedAccounts : List Address
  deriving DecidableEq, Repr, Inhabited

/-- Host context of one invocation: ledger time, the contract's own address,
the set of addresses the transaction authorizes (require_auth succeeds
exactly on these), and the host Ed25519 primitive (key, message,
signature). -/
structure HostEnv where
  now : Timestamp
  contractAddress : Address
  auths : List Address
  ed25519Verify : List Nat → List Nat → List Nat → Bool

/-- Host authorization check: `addr.require_auth()`. -/
def requireAuth (env : HostEnv) (a : Address) : Except TxError Unit :=
  if env.auths.contains a then Except.ok () else Except.error (.authRequired a)

/-! ### The external token contract (modelled from the spec) -/

/-- Balance of `holder` in `tok`, zero when unset. -/
def balOf (s : ContractState) (tok holder : Address) : Int :=
  (assocGet (tok, holder) s.balances).getD 0

/-- Allowance granted by `src` to `spender` on `tok`, zero when unset. -/
def allowanceOf (s : ContractState) (tok src spender : Address) : Int :=
  (assocGet (tok, src, spender) s.allowances).getD 0

/-- Modelled from the spec: the standard fungible-token `transfer` (an
external collaborator): rejects negative amounts, fails when the sender's
balance is short, otherwise moves `amt` from `src` to `dst`. -/
def tokenTransfer (tok src dst : Address) (amt : Int) (s : ContractState) :
    Except TxError ContractState :=
  if amt < 0 then Except.error .negativeAmount
  else if balOf s tok src < amt then Except.error .insufficientBalance
  else
    let b₁ := assocSet (tok, src) (balOf s tok src - amt) s.balances
    let s₁ := { s with balances := b₁ }
    Except.ok { s₁ with
      balances := assocSet (tok, dst) (balOf s₁ tok dst + amt) s₁.balances }

/-- Modelled from the spec: the token's `transfer_from` (pull payment):
additionally requires and consumes the allowance `src` granted to
`spender`. -/
def tokenTransferFrom (tok spender src dst : Address) (amt : Int)
    (s : ContractState) : Except TxError ContractState :=
  if amt < 0 then Except.error .negativeAmount
  else if allowanceOf s tok src spender < amt then
    Except.error .insufficientAllowance
  else
    match tokenTransfer tok src dst amt s with
    | Except.error e => Except.error e
    | Except.ok s₁ =>
        Except.ok { s₁ with
          allowances :=
            assocSet (tok, src, spender) (allowanceOf s tok src spender - amt)
              s₁.allowances }

/-- Modelled from the spec: the merchant escrow account contract's
`refund(token, amount, to)` (its source is not under src/, only its error
and event tables are): fails when the account is restricted, otherwise
transfers `amt` of `tok` from the escrow's own balance to `to`. -/
def escrowRefund (account tok : Address) (amt : Int) (dst : Address)
    (s : ContractState) : Except TxError ContractState :=
  if s.restrictedAccounts.contains account then Except.error .accountRestricted
  else tokenTransfer tok account dst amt s

/-! ### Components whose sources are missing from src/ (modelled from spec) -/

/-- Modelled from the spec: pausable component's `assert_not_paused` — fails
with `ContractPaused` when the Paused flag is set. -/
def assertNotPaused (s : ContractState) : Except TxError Unit :=
  if s.paused then Except.error (.contractErr .contractPaused) else Except.ok ()

/-- Modelled from the spec: merchant registry `is_merchant` — true iff the
MerchantId(address) index exists. -/
def isMerchant (s : ContractState) (a : Address) : Bool :=
  (assocGet a s.merchantIds).isSome

/-- Modelled from the spec: merchant registry `get_merchant_account(id)` —
pure lookup of the escrow address; payment "requires the merchant account to
be set else MerchantAccountNotSet". -/
def getMerchantAccount (s : ContractState) (mid : Nat) :
    Except TxError Address :=
  match assocGet mid s.merchantAccounts with
  | some a => Except.ok a
  | none => Except.error (.contractErr .merchantAccountNotSet)

/-- Modelled from the spec: admin component's `is_accepted_token`. -/
def isAcceptedToken (s : ContractState) (t : Address) : Bool :=
  s.acceptedTokens.contains t

/-- Modelled from the spec: access control `has_role` — Admin iff the stored
admin address, Manager/Operator via the stored role flag. -/
def hasRole (s : ContractState) (u : Address) (r : Role) : Bool :=
  match r with
  | .admin => s.admin = some u
  | .manager => s.managerRoles.contains u
  | .operator => s.operatorRoles.contains u

/-! ### Signature & nonce component (components/signature_util.rs) -/

/-- Big-endian base-256 digits of `n`, `k` bytes (the upper digits of a
longer value are truncated mod 256^k). -/
def natBeBytes : Nat → Nat → List Nat
  | 0, _ => []
  | k + 1, n => n / 256 ^ k % 256 :: natBeBytes k n

/-- The 16 bytes of `amount.to_be_bytes()` for an i128: big-endian
two's-complement. -/
def i128BeBytes (a : Int) : List Nat :=
  natBeBytes 16 (a % (2 : Int) ^ 128).toNat

/-- Big-endian byte-list decoder (most significant first). -/
def beBytesToNat : List Nat → Nat
  | [] => 0
  | b :: bs => b * 256 ^ bs.length + beBytesToNat bs

/-- Two's-complement reading of a 16-byte big-endian value. -/
def beBytesToI128 (bs : List Nat) : Int :=
  if beBytesToNat bs < 2 ^ 127 then (beBytesToNat bs : Int)
  else (beBytesToNat bs : Int) - 2 ^ 128

/-- Host XDR serialization of addresses and strings (an external host
facility; the component only concatenates its output). -/
structure XdrEnv where
  addrXdr : Address → List Nat
  strXdr : String → List Nat

/-- The canonical signed-invoice message of `build_message`: XDR of the
current contract address, XDR of the merchant address, the 32 raw nonce
bytes, the 16 big-endian two's-complement bytes of the i128 amount, XDR of
the token address, XDR of the description — concatenated in that order. -/
def buildMessage (xdr : XdrEnv) (contractAddr merchant : Address)
    (description : String) (amount : Int) (token : Address)
    (nonce : List Nat) : List Nat :=
  xdr.addrXdr contractAddr ++ xdr.addrXdr merchant ++ nonce
    ++ i128BeBytes amount ++ xdr.addrXdr token ++ xdr.strXdr description

/-- The component's `verify_invoice_signature`: loads MerchantKey(merchant)
(else MerchantKeyNotFound), rebuilds the canonical message and calls the
host Ed25519 verify (host crypto error on mismatch). -/
def verifyInvoiceSignature (env : HostEnv) (xdr : XdrEnv) (merchant : Address)
    (description : String) (amount : Int) (token : Address)
    (nonce sig : List Nat) (s : ContractState) : Except TxError Unit :=
  match assocGet merchant s.merchantKeys with
  | none => Except.error (.contractErr .merchantKeyNotFound)
  | some key =>
      if env.ed25519Verify key
          (buildMessage xdr env.contractAddress merchant description amount
            token nonce) sig
      then Except.ok () else Except.error .cryptoVerifyFailed

/-- The component's `invalidate_nonce`: fails with NonceAlreadyUsed when
UsedNonce(merchant, nonce) exists, else sets it true. -/
def invalidateNonce (merchant : Address) (nonce : List Nat)
    (s : ContractState) : Except TxError ContractState :=
  if (assocGet (merchant, nonce) s.usedNonces).isSome then
    Except.error (.contractErr .nonceAlreadyUsed)
  else
    Except.ok { s with
      usedNonces := assocSet (merchant, nonce) true s.usedNonces }

/-! ### Invoice engine (components/invoice.rs) -/

/-- MAX_REFUND_DURATION of invoice.rs: 604 800 seconds = 7 days. -/
def MAX_REFUND_DURATION : Nat := 604800

/-- External calls a payment issues, in order (token transfers). -/
inductive ExtCall where
  | transfer (tok src dst : Address) (amount : Int)
  deriving DecidableEq, Repr

/-- The component's `get_fee_for_amount`: TokenFee(token) basis points
(0 when unset), fee = amount * fee_bps / 10_000 with Rust's truncating
i128 division. -/
def getFeeForAmount (s : ContractState) (token : Address) (amount : Int) :
    Int :=
  let feeBps := (assocGet token s.tokenFee).getD 0
  if feeBps = 0 then 0 else (amount * feeBps).tdiv 10000

/-- The component's `get_invoice`: lookup or InvoiceNotFound. -/
def getInvoice (s : ContractState) (invoiceId : Nat) :
    Except TxError Invoice :=
  match assocGet invoiceId s.invoices with
  | some inv => Except.ok inv
  | none => Except.error (.contractErr .invoiceNotFound)

/-- The component's `create_invoice`: merchant auth, amount > 0, merchant
registered (else NotAuthorized); assigns id = InvoiceCount + 1, stores a
Pending invoice with zero amounts and the caller-supplied expires_at, bumps
the counter. -/
def createInvoice (env : HostEnv) (merchantAddress : Address)
    (description : String) (amount : Int) (token : Address)
    (expiresAt : Option Timestamp) (s : ContractState) :
    Except TxError (ContractState × Nat) :=
  match requireAuth env merchantAddress with
  | Except.error e => Except.error e
  | Except.ok _ =>
  if amount ≤ 0 then Except.error (.contractErr .invalidAmount)
  else if ¬ isMerchant s merchantAddress then
    Except.error (.contractErr .notAuthorized)
  else
    let merchantId := (assocGet merchantAddress s.merchantIds).getD 0
    let newId := s.invoiceCount + 1
    let inv : Invoice :=
      { id := newId, description := description, amount := amount,
        token := token, status := .pending, merchantId := merchantId,
        payer := none, dateCreated := env.now, datePaid := none,
        amountPaid := 0, amountRefunded := 0, expiresAt := expiresAt }
    Except.ok
      ({ s with invoices := assocSet newId inv s.invoices,
                invoiceCount := newId }, newId)

/-- The component's `create_invoice_signed`, in source order: caller must be
Manager or Admin (NotAuthorized) and authenticate; amount > 0; merchant
must exist (MerchantNotFound); verify the merchant's signature; invalidate
the nonce; then standard creation — with `expires_at: None`. -/
def createInvoiceSigned (env : HostEnv) (xdr : XdrEnv)
    (caller merchant : Address) (description : String) (amount : Int)
    (token : Address) (nonce sig : List Nat) (s : ContractState) :
    Except TxError (ContractState × Nat) :=
  if ¬ (hasRole s caller Role.manager ∨ hasRole s caller Role.admin) then
    Except.error (.contractErr .notAuthorized)
  else match requireAuth env caller with
  | Except.error e => Except.error e
  | Except.ok _ =>
  if amount ≤ 0 then Except.error (.contractErr .invalidAmount)
  else if ¬ isMerchant s merchant then
    Except.error (.contractErr .merchantNotFound)
  else match verifyInvoiceSignature env xdr merchant description amount token
      nonce sig s with
  | Except.error e => Except.error e
  | Except.ok _ =>
  match invalidateNonce merchant nonce s with
  | Except.error e => Except.error e
  | Except.ok s₁ =>
    let merchantId := (assocGet merchant s₁.merchantIds).getD 0
    let newId := s₁.invoiceCount + 1
    let inv : Invoice :=
      { id := newId, description := description, amount := amount,
        token := token, status := .pending, merchantId := merchantId,
        payer := none, dateCreated := env.now, datePaid := none,
        amountPaid := 0, amountRefunded := 0, expiresAt := none }
    Except.ok
      ({ s₁ with invoices := assocSet newId inv s₁.invoices,
                 invoiceCount := newId }, newId)

/-- The component's `pay_invoice_partial`, in source order: payer auth;
amount > 0; load invoice; expiry (now ≥ expires_at ⇒ InvoiceExpired, an
error name errors.rs never declares); status ∈ {Pending, PartiallyPaid};
amount_paid + amount ≤ amount; token accepted; fee split and the two token
transfers; ONLY THEN the payer-mismatch check (NotAuthorized); status and
payer update; store.  Besides the transaction result the embedding records
the token transfers the call issues before any abort. -/
def payInvoicePartial (env : HostEnv) (payer : Address) (invoiceId : Nat)
    (amount : Int) (s : ContractState) :
    List ExtCall × Except TxError (ContractState × Int) :=
  match requireAuth env payer with
  | Except.error e => ([], Except.error e)
  | Except.ok _ =>
  if amount ≤ 0 then ([], Except.error (.contractErr .invalidAmount))
  else match getInvoice s invoiceId with
  | Except.error e => ([], Except.error e)
  | Except.ok inv =>
  if (match inv.expiresAt with
      | some t => decide (t ≤ env.now)
      | none => false) then ([], Except.error .invoiceExpired)
  else if inv.status ≠ InvoiceStatus.pending ∧
      inv.status ≠ InvoiceStatus.partiallyPaid then
    ([], Except.error (.contractErr .invalidInvoiceStatus))
  else if inv.amount < inv.amountPaid + amount then
    ([], Except.error (.contractErr .invalidAmount))
  else if ¬ isAcceptedToken s inv.token then
    ([], Except.error (.contractErr .tokenNotAccepted))
  else
    let fee := getFeeForAmount s inv.token amount
    let merchantAmount := amount - fee
    match getMerchantAccount s inv.merchantId with
    | Except.error e => ([], Except.error e)
    | Except.ok macct =>
    let call₁ := ExtCall.transfer inv.token payer macct merchantAmount
    match tokenTransfer inv.token payer macct merchantAmount s with
    | Except.error e => ([call₁], Except.error e)
    | Except.ok s₁ =>
    let feeStep : List ExtCall × Except TxError ContractState :=
      if 0 < fee then
        let call₂ := ExtCall.transfer inv.token payer env.contractAddress fee
        match tokenTransfer inv.token payer env.contractAddress fee s₁ with
        | Except.error e => ([call₁, call₂], Except.error e)
        | Except.ok s₂ => ([call₁, call₂], Except.ok s₂)
      else ([call₁], Except.ok s₁)
    match feeStep with
    | (calls, Except.error e) => (calls, Except.error e)
    | (calls, Except.ok s₂) =>
    let inv₁ := { inv with amountPaid := inv.amountPaid + amount }
    let finish := fun (inv₂ : Invoice) =>
      let inv₃ :=
        if inv₂.amountPaid = inv₂.amount then
          { inv₂ with status := InvoiceStatus.paid, datePaid := some env.now }
        else { inv₂ with status := InvoiceStatus.partiallyPaid }
      (calls,
        Except.ok
          ({ s₂ with invoices := assocSet invoiceId inv₃ s₂.invoices }, fee))
    match inv₁.payer with
    | some existing =>
        if existing ≠ payer then
          (calls, Except.error (.contractErr .notAuthorized))
        else finish inv₁
    | none => finish { inv₁ with payer := some payer }

/-- The component's `pay_invoice`: status ∈ {Pending, PartiallyPaid},
remaining = amount − amount_paid must be positive, then delegates to the
partial payment of the remainder. -/
def payInvoice (env : HostEnv) (payer : Address) (invoiceId : Nat)
    (s : ContractState) :
    List ExtCall × Except TxError (ContractState × Int) :=
  match getInvoice s invoiceId with
  | Except.error e => ([], Except.error e)
  | Except.ok inv =>
  if inv.status ≠ InvoiceStatus.pending ∧
      inv.status ≠ InvoiceStatus.partiallyPaid then
    ([], Except.error (.contractErr .invalidInvoiceStatus))
  else
    let remaining := inv.amount - inv.amountPaid
    if remaining ≤ 0 then
      ([], Except.error (.contractErr .invalidInvoiceStatus))
    else payInvoicePartial env payer invoiceId remaining s

/-- The component's `refund_invoice_partial`, in source order: load invoice
(InvoiceNotFound); status ∈ {Paid, PartiallyRefunded}; refund window
(elapsed since date_paid ≤ MAX_REFUND_DURATION); amount > 0;
amount_refunded + amount ≤ amount; record the refund and new status; then
the stored payer (None ⇒ InvalidInvoiceStatus), the merchant escrow lookup,
and the escrow `refund` call to the payer.  No caller parameter, no
authorization check. -/
def refundInvoicePartial (env : HostEnv) (invoiceId : Nat) (amount : Int)
    (s : ContractState) : Except TxError ContractState :=
  match getInvoice s invoiceId with
  | Except.error e => Except.error e
  | Except.ok inv =>
  if inv.status ≠ InvoiceStatus.paid ∧
      inv.status ≠ InvoiceStatus.partiallyRefunded then
    Except.error (.contractErr .invalidInvoiceStatus)
  else if (match inv.datePaid with
           | some dp => decide (MAX_REFUND_DURATION < env.now - dp)
           | none => false) then
    Except.error (.contractErr .refundPeriodExpired)
  else if amount ≤ 0 then Except.error (.contractErr .invalidAmount)
  else
    let totalRefund := inv.amountRefunded + amount
    if inv.amount < totalRefund then
      Except.error (.contractErr .invalidAmount)
    else
      let newStatus :=
        if totalRefund = inv.amount then InvoiceStatus.refunded
        else InvoiceStatus.partiallyRefunded
      let inv₁ :=
        { inv with amountRefunded := totalRefund, status := newStatus }
      let s₁ := { s with invoices := assocSet invoiceId inv₁ s.invoices }
      match inv.payer with
      | none => Except.error (.contractErr .invalidInvoiceStatus)
      | some payer =>
        match getMerchantAccount s₁ inv.merchantId with
        | Except.error e => Except.error e
        | Except.ok macct => escrowRefund macct inv.token amount payer s₁

/-- The component's `refund_invoice`: merchant auth; invoice lookup; the
caller's MerchantId must exist and match the invoice (NotAuthorized);
refund window; remaining amount must be positive; then delegates to the
partial refund of the full remainder. -/
def refundInvoice (env : HostEnv) (merchantAddress : Address)
    (invoiceId : Nat) (s : ContractState) : Except TxError ContractState :=
  match requireAuth env merchantAddress with
  | Except.error e => Except.error e
  | Except.ok _ =>
  match getInvoice s invoiceId with
  | Except.error e => Except.error e
  | Except.ok inv =>
  match assocGet merchantAddress s.merchantIds with
  | none => Except.error (.contractErr .notAuthorized)
  | some merchantId =>
  if inv.merchantId ≠ merchantId then
    Except.error (.contractErr .notAuthorized)
  else if (match inv.datePaid with
           | some dp => decide (MAX_REFUND_DURATION < env.now - dp)
           | none => false) then
    Except.error (.contractErr .refundPeriodExpired)
  else
    let amountToRefund := inv.amount - inv.amountRefunded
    if amountToRefund ≤ 0 then Except.error (.contractErr .invalidAmount)
    else refundInvoicePartial env invoiceId amountToRefund s

/-- The component's `void_invoice`: merchant auth + ownership, status must
be Pending, transitions to Cancelled. -/
def voidInvoice (env : HostEnv) (merchantAddress : Address) (invoiceId : Nat)
    (s : ContractState) : Except TxError ContractState :=
  match requireAuth env merchantAddress with
  | Except.error e => Except.error e
  | Except.ok _ =>
  match getInvoice s invoiceId with
  | Except.error e => Except.error e
  | Except.ok inv =>
  match assocGet merchantAddress s.merchantIds with
  | none => Except.error (.contractErr .notAuthorized)
  | some merchantId =>
  if inv.merchantId ≠ merchantId then
    Except.error (.contractErr .notAuthorized)
  else if inv.status ≠ InvoiceStatus.pending then
    Except.error (.contractErr .invalidInvoiceStatus)
  else
    Except.ok { s with
      invoices :=
        assocSet invoiceId { inv with status := InvoiceStatus.cancelled }
          s.invoices }

/-- The component's `amend_invoice`: merchant auth + ownership, status must
be Pending; optional new amount (> 0) and description are written in
place. -/
def amendInvoice (env : HostEnv) (merchantAddress : Address) (invoiceId : Nat)
    (newAmount : Option Int) (newDescription : Option String)
    (s : ContractState) : Except TxError ContractState :=
  match requireAuth env merchantAddress with
  | Except.error e => Except.error e
  | Except.ok _ =>
  match getInvoice s invoiceId with
  | Except.error e => Except.error e
  | Except.ok inv =>
  match assocGet merchantAddress s.merchantIds with
  | none => Except.error (.contractErr .notAuthorized)
  | some merchantId =>
  if inv.merchantId ≠ merchantId then
    Except.error (.contractErr .notAuthorized)
  else if inv.status ≠ InvoiceStatus.pending then
    Except.error (.contractErr .invalidInvoiceStatus)
  else match newAmount with
  | some a =>
      if a ≤ 0 then Except.error (.contractErr .invalidAmount)
      else
        let inv₁ := { inv with amount := a }
        let inv₂ :=
          match newDescription with
          | some d => { inv₁ with description := d }
          | none => inv₁
        Except.ok { s with invoices := assocSet invoiceId inv₂ s.invoices }
  | none =>
      let inv₂ :=
        match newDescription with
        | some d => { inv with description := d }
        | none => inv
      Except.ok { s with invoices := assocSet invoiceId inv₂ s.invoices }

/-! ### Subscription engine (components/subscription.rs) -/

/-- The component's `load_plan`: lookup or `ContractError::NotFound` (a name
errors.rs never declares). -/
def loadPlan (s : ContractState) (planId : Nat) :
    Except TxError SubscriptionPlan :=
  match assocGet planId s.plans with
  | some p => Except.ok p
  | none => Except.error .entryNotFound

/-- The component's `load_subscription`: lookup or the undeclared
`NotFound`. -/
def loadSubscription (s : ContractState) (subscriptionId : Nat) :
    Except TxError Subscription :=
  match assocGet subscriptionId s.subs with
  | some sub => Except.ok sub
  | none => Except.error .entryNotFound

/-- The component's `create_subscription_plan`: merchant auth; amount > 0;
interval > 0 (else the undeclared `InvalidInterval`); allocate
id = PlanCount + 1, store active plan, bump counter. -/
def createSubscriptionPlan (env : HostEnv) (merchant token : Address)
    (amount : Int) (interval : Nat) (s : ContractState) :
    Except TxError (ContractState × Nat) :=
  match requireAuth env merchant with
  | Except.error e => Except.error e
  | Except.ok _ =>
  if amount ≤ 0 then Except.error (.contractErr .invalidAmount)
  else if interval = 0 then Except.error .invalidInterval
  else
    let planId := s.planCount + 1
    let plan : SubscriptionPlan :=
      { id := planId, merchant := merchant, token := token, amount := amount,
        interval := interval, active := true }
    Except.ok
      ({ s with plans := assocSet planId plan s.plans,
                planCount := planId }, planId)

/-- The component's `subscribe`: the CUSTOMER MUST AUTHENTICATE
(`customer.require_auth()`); the plan must exist and be active (undeclared
`PlanNotActive` otherwise); allocate id = SubscriptionCount + 1 with
status Active and last_charge_date = 0. -/
def subscribe (env : HostEnv) (customer : Address) (planId : Nat)
    (s : ContractState) : Except TxError (ContractState × Nat) :=
  match requireAuth env customer with
  | Except.error e => Except.error e
  | Except.ok _ =>
  match loadPlan s planId with
  | Except.error e => Except.error e
  | Except.ok plan =>
  if ¬ plan.active then Except.error .planNotActive
  else
    let subscriptionId := s.subCount + 1
    let sub : Subscription :=
      { id := subscriptionId, planId := planId, customer := customer,
        lastChargeDate := 0, status := .active }
    Except.ok
      ({ s with subs := assocSet subscriptionId sub s.subs,
                subCount := subscriptionId }, subscriptionId)

/-- The component's `charge_subscription`, in source order: load sub
(undeclared NotFound); status Active (undeclared SubscriptionNotActive);
load plan; UNCONDITIONALLY require now ≥ last_charge_date + interval (the
undeclared IntervalNotElapsed) — the code has no special case for
last_charge_date = 0; fee from FeeInBasisPoints(token); the two
transfer_from pulls (fee to the contract when positive, net to the
merchant's escrow); persist last_charge_date = now. -/
def chargeSubscription (env : HostEnv) (subscriptionId : Nat)
    (s : ContractState) : Except TxError ContractState :=
  match loadSubscription s subscriptionId with
  | Except.error e => Except.error e
  | Except.ok sub =>
  if sub.status ≠ SubscriptionStatus.active then
    Except.error .subscriptionNotActive
  else match loadPlan s sub.planId with
  | Except.error e => Except.error e
  | Except.ok plan =>
  if env.now < sub.lastChargeDate + plan.interval then
    Except.error .intervalNotElapsed
  else
    let feeBps := (assocGet plan.token s.feeBps).getD 0
    let fee := (plan.amount * feeBps).tdiv 10000
    let net := plan.amount - fee
    match assocGet plan.merchant s.merchantIds with
    | none => Except.error (.contractErr .merchantNotFound)
    | some merchantId =>
    match assocGet merchantId s.merchantAccounts with
    | none => Except.error (.contractErr .merchantAccountNotFound)
    | some macct =>
    let feeStep : Except TxError ContractState :=
      if 0 < fee then
        tokenTransferFrom plan.token env.contractAddress sub.customer
          env.contractAddress fee s
      else Except.ok s
    match feeStep with
    | Except.error e => Except.error e
    | Except.ok s₁ =>
    match tokenTransferFrom plan.token env.contractAddress sub.customer
        macct net s₁ with
    | Except.error e => Except.error e
    | Except.ok s₂ =>
      Except.ok { s₂ with
        subs :=
          assocSet subscriptionId { sub with lastChargeDate := env.now }
            s₂.subs }

/-- The component's `cancel_subscription`: caller auth; caller must be the
customer or the plan's merchant; status set to Cancelled (the code checks
no prior status). -/
def cancelSubscription (env : HostEnv) (caller : Address)
    (subscriptionId : Nat) (s : ContractState) :
    Except TxError ContractState :=
  match requireAuth env caller with
  | Except.error e => Except.error e
  | Except.ok _ =>
  match loadSubscription s subscriptionId with
  | Except.error e => Except.error e
  | Except.ok sub =>
  match loadPlan s sub.planId with
  | Except.error e => Except.error e
  | Except.ok plan =>
  if caller ≠ sub.customer ∧ caller ≠ plan.merchant then
    Except.error (.contractErr .notAuthorized)
  else
    Except.ok { s with
      subs :=
        assocSet subscriptionId { sub with status := .cancelled } s.subs }

/-! ### Facade (shade.rs): pause gate before delegation -/

/-- shade.rs `refund_invoice_partial`: assert_not_paused, then the
component. -/
def shadeRefundInvoicePartial (env : HostEnv) (invoiceId : Nat)
    (amount : Int) (s : ContractState) : Except TxError ContractState :=
  match assertNotPaused s with
  | Except.error e => Except.error e
  | Except.ok _ => refundInvoicePartial env invoiceId amount s

/-! ### One step of the system: every embedded entry point -/

/-- One invocation of any embedded entry point, with its inputs. -/
inductive SysOp where
  | createInvoiceOp (merchant : Address) (description : String)
      (amount : Int) (token : Address) (expiresAt : Option Timestamp)
  | createInvoiceSignedOp (caller merchant : Address) (description : String)
      (amount : Int) (token : Address) (nonce sig : List Nat)
  | payInvoiceOp (payer : Address) (invoiceId : Nat)
  | payInvoicePartialOp (payer : Address) (invoiceId : Nat) (amount : Int)
  | refundInvoiceOp (merchant : Address) (invoiceId : Nat)
  | refundInvoicePartialOp (invoiceId : Nat) (amount : Int)
  | voidInvoiceOp (merchant : Address) (invoiceId : Nat)
  | amendInvoiceOp (merchant : Address) (invoiceId : Nat)
      (newAmount : Option Int) (newDescription : Option String)
  | createPlanOp (merchant token : Address) (amount : Int) (interval : Nat)
  | subscribeOp (customer : Address) (planId : Nat)
  | chargeSubscriptionOp (subscriptionId : Nat)
  | cancelSubscriptionOp (caller : Address) (subscriptionId : Nat)
  | invalidateNonceOp (merchant : Address) (nonce : List Nat)

/-- Execute one entry point, dropping auxiliary return values. -/
def sysStep (env : HostEnv) (xdr : XdrEnv) (op : SysOp) (s : ContractState) :
    Except TxError ContractState :=
  match op with
  | .createInvoiceOp m d a t e =>
      match createInvoice env m d a t e s with
      | Except.ok (s₁, _) => Except.ok s₁
      | Except.error err => Except.error err
  | .createInvoiceSignedOp c m d a t n sig =>
      match createInvoiceSigned env xdr c m d a t n sig s with
      | Except.ok (s₁, _) => Except.ok s₁
      | Except.error err => Except.error err
  | .payInvoiceOp p id =>
      match (payInvoice env p id s).2 with
      | Except.ok (s₁, _) => Except.ok s₁
      | Except.error err => Except.error err
  | .payInvoicePartialOp p id a =>
      match (payInvoicePartial env p id a s).2 with
      | Except.ok (s₁, _) => Except.ok s₁
      | Except.error err => Except.error err
  | .refundInvoiceOp m id => refundInvoice env m id s
  | .refundInvoicePartialOp id a => refundInvoicePartial env id a s
  | .voidInvoiceOp m id => voidInvoice env m id s
  | .amendInvoiceOp m id na nd => amendInvoice env m id na nd s
  | .createPlanOp m t a i =>
      match createSubscriptionPlan env m t a i s with
      | Except.ok (s₁, _) => Except.ok s₁
      | Except.error err => Except.error err
  | .subscribeOp c pid =>
      match subscribe env c pid s with
      | Except.ok (s₁, _) => Except.ok s₁
      | Except.error err => Except.error err
  | .chargeSubscriptionOp sid => chargeSubscription env sid s
  | .cancelSubscriptionOp c sid => cancelSubscription env c sid s
  | .invalidateNonceOp m n => invalidateNonce m n s

/-! ### Invoice invariants -/

/-- The inductive per-invoice invariant the operations maintain: positive
face amount, bounded amounts, and per-status amount equations. -/
def invoiceInv (inv : Invoice) : Prop :=
  0 < inv.amount ∧ 0 ≤ inv.amountPaid ∧ inv.amountPaid ≤ inv.amount ∧
  0 ≤ inv.amountRefunded ∧ inv.amountRefunded ≤ inv.amount ∧
  (match inv.status with
   | .pending => inv.amountPaid = 0 ∧ inv.amountRefunded = 0
   | .cancelled => inv.amountPaid = 0 ∧ inv.amountRefunded = 0
   | .paid => inv.amountPaid = inv.amount ∧ inv.amountRefunded = 0
   | .partiallyPaid =>
       0 < inv.amountPaid ∧ inv.amountPaid < inv.amount ∧
       inv.amountRefunded = 0
   | .refunded =>
       inv.amountRefunded = inv.amount ∧ inv.amountPaid = inv.amount
   | .partiallyRefunded =>
       0 < inv.amountRefunded ∧ inv.amountRefunded < inv.amount ∧
       inv.amountPaid = inv.amount)

/-- Every stored invoice satisfies the inductive invariant. -/
def allInvoicesInv (s : ContractState) : Prop :=
  ∀ id inv, assocGet id s.invoices = some inv → invoiceInv inv

/-- The consistency property of the spec's §8 as the claim states it:
bounds plus the four status biconditionals. -/
def invoiceConsistent (inv : Invoice) : Prop :=
  0 ≤ inv.amountPaid ∧ inv.amountPaid ≤ inv.amount ∧
  0 ≤ inv.amountRefunded ∧ inv.amountRefunded ≤ inv.amount ∧
  (inv.status = InvoiceStatus.paid ↔
    inv.amountPaid = inv.amount ∧ inv.amountRefunded = 0) ∧
  (inv.status = InvoiceStatus.partiallyPaid ↔
    0 < inv.amountPaid ∧ inv.amountPaid < inv.amount) ∧
  (inv.status = InvoiceStatus.refunded ↔
    inv.amountRefunded = inv.amount) ∧
  (inv.status = InvoiceStatus.partiallyRefunded ↔
    0 < inv.amountRefunded ∧ inv.amountRefunded < inv.amount ∧
    inv.amountPaid = inv.amount)

/-- States reachable from an invoice-free store: any embedded entry point
may run, and any other operation that leaves invoice storage untouched is
covered by the frame rule. -/
inductive ReachInv : ContractState → Prop where
  | init (s : ContractState) : s.invoices = [] → ReachInv s
  | frame (s s₂ : ContractState) : ReachInv s → s₂.invoices = s.invoices →
      ReachInv s₂
  | step (env : HostEnv) (xdr : XdrEnv) (op : SysOp)
      (s s₂ : ContractState) : ReachInv s →
      sysStep env xdr op s = Except.ok s₂ → ReachInv s₂

/-! ### Concrete example data used by the claim theorems -/

/-- Example host context: ledger time 1000, the contract at address 99,
the transaction authorizing the merchant (10), two payers (30, 31) and the
admin (7). -/
def exEnv : HostEnv :=
  { now := 1000, contractAddress := 99, auths := [10, 30, 31, 7],
    ed25519Verify := fun _ _ _ => true }

/-- A pending invoice of merchant 1 over 1000 units of token 100. -/
def exInv : Invoice :=
  { id := 1, description := "x", amount := 1000, token := 100,
    status := .pending, merchantId := 1, payer := none, dateCreated := 0,
    datePaid := none, amountPaid := 0, amountRefunded := 0,
    expiresAt := none }

/-- Example contract state: token 100 accepted with a 500 bp (5%) fee,
merchant 10 registered as id 1 with escrow account 20, invoice `exInv`
stored under id 1, payer 30 holding 1000 units. -/
def exState : ContractState :=
  { admin := some 7, paused := false, acceptedTokens := [100],
    tokenFee := [(100, 500)], feeBps := [(100, 500)],
    merchantIds := [(10, 1)], merchantAccounts := [(1, 20)],
    merchantKeys := [], managerRoles := [], operatorRoles := [],
    usedNonces := [], invoices := [(1, exInv)], invoiceCount := 1,
    plans := [], planCount := 0, subs := [], subCount := 0,
    balances := [((100, 30), 1000)], allowances := [],
    restrictedAccounts := [] }

/-- The state a successful payment leaves, or the default state on error. -/
def okPayState (r : List ExtCall × Except TxError (ContractState × Int)) :
    ContractState :=
  match r.2 with
  | Except.ok (s, _) => s
  | Except.error _ => default

/-- The state after payer 30 fully pays invoice 1 in `exState`. -/
def exPaidState : ContractState := okPayState (payInvoice exEnv 30 1 exState)

/-- A monthly (2 592 000 s) plan of merchant 10 over token 100. -/
def exPlan : SubscriptionPlan :=
  { id := 1, merchant := 10, token := 100, amount := 1000,
    interval := 2592000, active := true }

/-- Customer 30's never-charged active subscription to `exPlan`. -/
def exSub : Subscription :=
  { id := 1, planId := 1, customer := 30, lastChargeDate := 0,
    status := .active }

/-- `exState` extended with the plan, the subscription and an ample
allowance from customer 30 to the contract. -/
def exSubState : ContractState :=
  { exState with
      plans := [(1, exPlan)], planCount := 1,
      subs := [(1, exSub)], subCount := 1,
      allowances := [((100, 30, 99), 10000)] }

/-- A partially paid invoice whose recorded payer is 30. -/
def exMismatchInv : Invoice :=
  { exInv with
      status := .partiallyPaid, amountPaid := 500, payer := some 30 }

/-- `exState` with `exMismatchInv` stored and address 31 (not the recorded
payer) holding funds. -/
def exMismatchState : ContractState :=
  { exState with
      invoices := [(1, exMismatchInv)], balances := [((100, 31), 1000)] }

/-- A fully paid, in-window invoice whose merchant id 2 has NO merchant
account bound. -/
def exNoAcctInv : Invoice :=
  { exInv with
      status := .paid, amountPaid := 1000, payer := some 30,
      datePaid := some 900, merchantId := 2 }

/-- `exState` with `exNoAcctInv` stored and the escrow of merchant 1 funded
(irrelevant to invoice 1, whose merchant id 2 has no account). -/
def exNoAcctState : ContractState :=
  { exState with
      invoices := [(1, exNoAcctInv)], balances := [((100, 20), 950)] }

/-- The state a successful state-returning call leaves, default on error. -/
def okSt (r : Except TxError ContractState) : ContractState :=
  match r with
  | Except.ok s => s
  | Except.error _ => default

/-- A trivial XDR host serialization for concrete runs. -/
def exXdr : XdrEnv := { addrXdr := fun _ => [], strXdr := fun _ => [] }

/-- `exState` with no invoices stored yet. -/
def exEmptyState : ContractState :=
  { exState with invoices := [], invoiceCount := 0 }

/-- The state after merchant 10 creates a 500-unit invoice in the empty
store. -/
def exCreatedState : ContractState :=
  okSt (sysStep exEnv exXdr (SysOp.createInvoiceOp 10 "w" 500 100 none)
    exEmptyState)

/-- The invoice that creation stored under id 1. -/
def exCreatedInv : Invoice :=
  (assocGet 1 exCreatedState.invoices).getD default

/-- Round-trip scenario state: invoice 1 pending over `A` units of the
zero-fee token 100, payer 30 holding `B`. -/
def rtBase (A B : Int) : ContractState :=
  { exState with
      tokenFee := [(100, 0)], feeBps := [(100, 0)],
      invoices := [(1, { exInv with amount := A })],
      balances := [((100, 30), B)] }

/-- The state after payer 30 fully pays invoice 1 of `rtBase A B`. -/
def rtPaid (A B : Int) : ContractState :=
  okPayState (payInvoice exEnv 30 1 (rtBase A B))

/-- The state after merchant 10 then fully refunds invoice 1. -/
def rtRefunded (A B : Int) : ContractState :=
  okSt (refundInvoice exEnv 10 1 (rtPaid A B))

/-! ### Supporting lemmas -/

theorem assocGet_set_self {α β : Type} [DecidableEq α] (k : α) (v : β)
    (l : List (α × β)) : assocGet k (assocSet k v l) = some v := by
  simp [assocGet, assocSet]

theorem assocGet_set_other {α β : Type} [DecidableEq α] {k k₂ : α} (v : β)
    (l : List (α × β)) (h : k₂ ≠ k) :
    assocGet k₂ (assocSet k v l) = assocGet k₂ l := by
  simp [assocGet, assocSet, h]


/-! ### Shape and preservation lemmas for the operations -/

theorem tokenTransfer_error {tok src dst : Address} {amt : Int}
    {s : ContractState} {e : TxError} (h0 : 0 ≤ amt)
    (h : tokenTransfer tok src dst amt s = Except.error e) :
    e = TxError.insufficientBalance := by
  unfold tokenTransfer at h
  have : ¬ amt < 0 := by omega
  split_ifs at h <;> simp_all

theorem escrowRefund_error {account tok : Address} {amt : Int}
    {dst : Address} {s : ContractState} {e : TxError} (h0 : 0 ≤ amt)
    (h : escrowRefund account tok amt dst s = Except.error e) :
    e = TxError.accountRestricted ∨ e = TxError.insufficientBalance := by
  unfold escrowRefund at h
  split_ifs at h
  · simp_all
  · exact Or.inr (tokenTransfer_error h0 h)

theorem refundPartial_success (env : HostEnv) (id : Nat) (amt : Int)
    (s : ContractState) (inv : Invoice) (p macct : Address)
    (hinv : assocGet id s.invoices = some inv)
    (hstat : inv.status = InvoiceStatus.paid ∨
      inv.status = InvoiceStatus.partiallyRefunded)
    (hwin : ∀ dp, inv.datePaid = some dp →
      env.now - dp ≤ MAX_REFUND_DURATION)
    (hamt : 0 < amt)
    (hfits : inv.amountRefunded + amt ≤ inv.amount)
    (hpay : inv.payer = some p)
    (hacct : assocGet inv.merchantId s.merchantAccounts = some macct)
    (hres : s.restrictedAccounts.contains macct = false)
    (hbal : amt ≤ balOf s inv.token macct)
    (hmp : p ≠ macct) :
    (refundInvoicePartial env id amt s).isOk = true ∧
    balOf (okSt (refundInvoicePartial env id amt s)) inv.token p =
      balOf s inv.token p + amt ∧
    balOf (okSt (refundInvoicePartial env id amt s)) inv.token macct =
      balOf s inv.token macct - amt ∧
    assocGet id (okSt (refundInvoicePartial env id amt s)).invoices =
      some { inv with
              amountRefunded := inv.amountRefunded + amt,
              status :=
                if inv.amountRefunded + amt = inv.amount then
                  InvoiceStatus.refunded
                else InvoiceStatus.partiallyRefunded } := by
  have h1 : ¬ amt ≤ 0 := by omega
  have h2 : ¬ inv.amount < inv.amountRefunded + amt := by omega
  have hw : (match inv.datePaid with
      | some dp => decide (MAX_REFUND_DURATION < env.now - dp)
      | none => false) = false := by
    rcases hdp : inv.datePaid with _ | dp
    · rfl
    · simpa using hwin dp hdp
  have hsn : ¬ (inv.status ≠ InvoiceStatus.paid ∧
      inv.status ≠ InvoiceStatus.partiallyRefunded) := by
    rcases hstat with h | h <;> simp [h]
  have hbal2 : ¬ balOf s inv.token macct < amt := by omega
  have h3 : ¬ amt < 0 := by omega
  have hpm : macct ≠ p := Ne.symm hmp
  simp only [balOf] at hbal2
  have hresm : macct ∉ s.restrictedAccounts := by simpa using hres
  refine ⟨?_, ?_, ?_, ?_⟩ <;>
    simp [refundInvoicePartial, getInvoice, hinv, hsn, hw, h1, h2, hpay,
      getMerchantAccount, hacct, escrowRefund, hresm, tokenTransfer, h3,
      hbal2, okSt, balOf, assocGet, assocSet, Prod.mk.injEq, hpm, hmp,
      Except.isOk, Except.toBool]

theorem tokenTransfer_ok_fields {tok src dst : Address} {amt : Int}
    {s s₁ : ContractState}
    (h : tokenTransfer tok src dst amt s = Except.ok s₁) :
    s₁.invoices = s.invoices ∧ s₁.usedNonces = s.usedNonces ∧
    s₁.subs = s.subs ∧ s₁.plans = s.plans ∧
    s₁.merchantIds = s.merchantIds ∧
    s₁.merchantAccounts = s.merchantAccounts := by
  unfold tokenTransfer at h
  split_ifs at h <;>
    first
      | (simp only [Except.ok.injEq] at h
         subst h
         exact ⟨rfl, rfl, rfl, rfl, rfl, rfl⟩)
      | simp at h

theorem payPartial_ok_shape {env : HostEnv} {payer : Address} {id : Nat}
    {amount : Int} {s s₂ : ContractState} {fee : Int}
    (h : (payInvoicePartial env payer id amount s).2 = Except.ok (s₂, fee)) :
    ∃ inv inv₃, assocGet id s.invoices = some inv ∧
      (inv.status = InvoiceStatus.pending ∨
        inv.status = InvoiceStatus.partiallyPaid) ∧
      0 < amount ∧ inv.amountPaid + amount ≤ inv.amount ∧
      s₂.invoices = assocSet id inv₃ s.invoices ∧
      s₂.usedNonces = s.usedNonces ∧
      inv₃.amount = inv.amount ∧
      inv₃.amountPaid = inv.amountPaid + amount ∧
      inv₃.amountRefunded = inv.amountRefunded ∧
      (if inv.amountPaid + amount = inv.amount then
        inv₃.status = InvoiceStatus.paid
       else inv₃.status = InvoiceStatus.partiallyPaid) := by
  rcases hra : requireAuth env payer with e | u
  · simp [payInvoicePartial, hra] at h
  simp only [payInvoicePartial, hra] at h
  by_cases h₁ : amount ≤ 0
  · simp [h₁] at h
  simp only [h₁, if_false] at h
  rcases hin : assocGet id s.invoices with _ | inv
  · simp [getInvoice, hin] at h
  simp only [getInvoice, hin] at h
  cases hx : (match inv.expiresAt with
      | some t => decide (t ≤ env.now)
      | none => false) with
  | true => simp [hx] at h
  | false =>
  simp only [hx, Bool.false_eq_true, if_false] at h
  by_cases hst : inv.status ≠ InvoiceStatus.pending ∧
      inv.status ≠ InvoiceStatus.partiallyPaid
  · simp [hst] at h
  simp only [hst, if_false] at h
  by_cases hov : inv.amount < inv.amountPaid + amount
  · simp [hov] at h
  simp only [hov, if_false] at h
  by_cases htk : ¬ isAcceptedToken s inv.token = true
  · simp [htk] at h
  simp only [htk, if_false] at h
  rcases hma : assocGet inv.merchantId s.merchantAccounts with _ | macct
  · simp [getMerchantAccount, hma] at h
  simp only [getMerchantAccount, hma] at h
  rcases htr : tokenTransfer inv.token payer macct
      (amount - getFeeForAmount s inv.token amount) s with e₁ | s₁
  · simp [htr] at h
  simp only [htr] at h
  have hfields := tokenTransfer_ok_fields htr
  have hst' : inv.status = InvoiceStatus.pending ∨
      inv.status = InvoiceStatus.partiallyPaid := by tauto
  have hamt' : (0 : Int) < amount := by omega
  have hfit' : inv.amountPaid + amount ≤ inv.amount := by omega
  by_cases hfe : 0 < getFeeForAmount s inv.token amount
  · rcases htr2 : tokenTransfer inv.token payer env.contractAddress
        (getFeeForAmount s inv.token amount) s₁ with e₂ | s₃
    · simp [hfe, htr2] at h
    have hfields₂ := tokenTransfer_ok_fields htr2
    simp only [hfe, if_true, htr2] at h
    rcases hp : inv.payer with _ | existing
    · simp only [hp] at h
      simp at h
      obtain ⟨hs, hf⟩ := h
      refine ⟨inv,
        (if inv.amountPaid + amount = inv.amount then
          { inv with amountPaid := inv.amountPaid + amount,
                     payer := some payer, status := InvoiceStatus.paid,
                     datePaid := some env.now }
         else
          { inv with amountPaid := inv.amountPaid + amount,
                     payer := some payer,
                     status := InvoiceStatus.partiallyPaid }),
        rfl, hst', hamt', hfit', ?_, ?_, ?_, ?_, ?_, ?_⟩
      · rw [← hs]
        simp [hfields.1, hfields₂.1, hp]
      · rw [← hs]
        simp [hfields.2.1, hfields₂.2.1]
      · split <;> rfl
      · split <;> rfl
      · split <;> rfl
      · split <;> simp_all
    · simp only [hp] at h
      by_cases hex : existing ≠ payer
      · simp [hex] at h
      simp only [hex, if_false] at h
      simp at h
      obtain ⟨hs, hf⟩ := h
      refine ⟨inv,
        (if inv.amountPaid + amount = inv.amount then
          { inv with amountPaid := inv.amountPaid + amount,
                     status := InvoiceStatus.paid,
                     datePaid := some env.now }
         else
          { inv with amountPaid := inv.amountPaid + amount,
                     status := InvoiceStatus.partiallyPaid }),
        rfl, hst', hamt', hfit', ?_, ?_, ?_, ?_, ?_, ?_⟩
      · rw [← hs]
        simp [hfields.1, hfields₂.1, hp]
      · rw [← hs]
        simp [hfields.2.1, hfields₂.2.1]
      · split <;> rfl
      · split <;> rfl
      · split <;> rfl
      · split <;> simp_all
  · simp only [hfe, if_false] at h
    rcases hp : inv.payer with _ | existing
    · simp only [hp] at h
      simp at h
      obtain ⟨hs, hf⟩ := h
      refine ⟨inv,
        (if inv.amountPaid + amount = inv.amount then
          { inv with amountPaid := inv.amountPaid + amount,
                     payer := some payer, status := InvoiceStatus.paid,
                     datePaid := some env.now }
         else
          { inv with amountPaid := inv.amountPaid + amount,
                     payer := some payer,
                     status := InvoiceStatus.partiallyPaid }),
        rfl, hst', hamt', hfit', ?_, ?_, ?_, ?_, ?_, ?_⟩
      · rw [← hs]
        simp [hfields.1, hp]
      · rw [← hs]
        simp [hfields.2.1]
      · split <;> rfl
      · split <;> rfl
      · split <;> rfl
      · split <;> simp_all
    · simp only [hp] at h
      by_cases hex : existing ≠ payer
      · simp [hex] at h
      simp only [hex, if_false] at h
      simp at h
      obtain ⟨hs, hf⟩ := h
      refine ⟨inv,
        (if inv.amountPaid + amount = inv.amount then
          { inv with amountPaid := inv.amountPaid + amount,
                     status := InvoiceStatus.paid,
                     datePaid := some env.now }
         else
          { inv with amountPaid := inv.amountPaid + amount,
                     status := InvoiceStatus.partiallyPaid }),
        rfl, hst', hamt', hfit', ?_, ?_, ?_, ?_, ?_, ?_⟩
      · rw [← hs]
        simp [hfields.1, hp]
      · rw [← hs]
        simp [hfields.2.1]
      · split <;> rfl
      · split <;> rfl
      · split <;> rfl
      · split <;> simp_all

theorem refundPartial_ok_shape {env : HostEnv} {id : Nat} {amt : Int}
    {s s₂ : ContractState}
    (h : refundInvoicePartial env id amt s = Except.ok s₂) :
    ∃ inv, assocGet id s.invoices = some inv ∧
      (inv.status = InvoiceStatus.paid ∨
        inv.status = InvoiceStatus.partiallyRefunded) ∧
      0 < amt ∧ inv.amountRefunded + amt ≤ inv.amount ∧
      s₂.invoices = assocSet id
        { inv with
            amountRefunded := inv.amountRefunded + amt,
            status :=
              if inv.amountRefunded + amt = inv.amount then
                InvoiceStatus.refunded
              else InvoiceStatus.partiallyRefunded }
        s.invoices ∧
      s₂.usedNonces = s.usedNonces := by
  rcases hin : assocGet id s.invoices with _ | inv
  · simp [refundInvoicePartial, getInvoice, hin] at h
  simp only [refundInvoicePartial, getInvoice, hin] at h
  by_cases hst : inv.status ≠ InvoiceStatus.paid ∧
      inv.status ≠ InvoiceStatus.partiallyRefunded
  · simp [hst] at h
  simp only [hst, if_false] at h
  cases hw : (match inv.datePaid with
      | some dp => decide (MAX_REFUND_DURATION < env.now - dp)
      | none => false) with
  | true => simp [hw] at h
  | false =>
  simp only [hw, Bool.false_eq_true, if_false] at h
  by_cases ha : amt ≤ 0
  · simp [ha] at h
  simp only [ha, if_false] at h
  by_cases hov : inv.amount < inv.amountRefunded + amt
  · simp [hov] at h
  simp only [hov, if_false] at h
  rcases hp : inv.payer with _ | payer
  · simp [hp] at h
  simp only [hp] at h
  rcases hma : assocGet inv.merchantId s.merchantAccounts with _ | macct
  · simp [getMerchantAccount, hma] at h
  simp only [getMerchantAccount, hma] at h
  unfold escrowRefund at h
  by_cases hre : macct ∈ s.restrictedAccounts
  · simp [hre] at h
  have hrc : s.restrictedAccounts.contains macct = false := by simpa using hre
  simp only [hrc, Bool.false_eq_true, if_false] at h
  rcases htr : tokenTransfer inv.token macct payer amt
      { s with
          invoices := assocSet id
            { inv with
                payer := some payer,
                amountRefunded := inv.amountRefunded + amt,
                status :=
                  if inv.amountRefunded + amt = inv.amount then
                    InvoiceStatus.refunded
                  else InvoiceStatus.partiallyRefunded }
            s.invoices } with e₁ | s₁
  · rw [htr] at h
    simp at h
  have hfields := tokenTransfer_ok_fields htr
  rw [htr] at h
  simp only [Except.ok.injEq] at h
  subst h
  have hst' : inv.status = InvoiceStatus.paid ∨
      inv.status = InvoiceStatus.partiallyRefunded := by tauto
  refine ⟨inv, rfl, hst', by omega, by omega, ?_, by rw [hfields.2.1]⟩
  rw [hfields.1]
  simp [hp]

theorem tokenTransferFrom_ok_fields {tok spender src dst : Address}
    {amt : Int} {s s₁ : ContractState}
    (h : tokenTransferFrom tok spender src dst amt s = Except.ok s₁) :
    s₁.invoices = s.invoices ∧ s₁.usedNonces = s.usedNonces := by
  unfold tokenTransferFrom at h
  split_ifs at h <;> try exact Except.noConfusion h
  rcases htr : tokenTransfer tok src dst amt s with e | s₀
  · rw [htr] at h
    simp at h
  rw [htr] at h
  simp only [Except.ok.injEq] at h
  subst h
  have hf := tokenTransfer_ok_fields htr
  exact ⟨hf.1, hf.2.1⟩

theorem pay_ok_shape {env : HostEnv} {payer : Address} {id : Nat}
    {s s₂ : ContractState} {fee : Int}
    (h : (payInvoice env payer id s).2 = Except.ok (s₂, fee)) :
    ∃ amount, (payInvoicePartial env payer id amount s).2 =
      Except.ok (s₂, fee) := by
  unfold payInvoice at h
  rcases hin : assocGet id s.invoices with _ | inv
  · simp [getInvoice, hin] at h
  simp only [getInvoice, hin] at h
  by_cases hst : inv.status ≠ InvoiceStatus.pending ∧
      inv.status ≠ InvoiceStatus.partiallyPaid
  · simp [hst] at h
  simp only [hst, if_false] at h
  by_cases hrem : inv.amount - inv.amountPaid ≤ 0
  · simp [hrem] at h
  simp only [hrem, if_false] at h
  exact ⟨_, h⟩

theorem create_ok_shape {env : HostEnv} {m : Address} {d : String} {a : Int}
    {t : Address} {e : Option Timestamp} {s s₂ : ContractState} {nid : Nat}
    (h : createInvoice env m d a t e s = Except.ok (s₂, nid)) :
    0 < a ∧
    s₂.invoices = assocSet (s.invoiceCount + 1)
      { id := s.invoiceCount + 1, description := d, amount := a, token := t,
        status := .pending, merchantId := (assocGet m s.merchantIds).getD 0,
        payer := none, dateCreated := env.now, datePaid := none,
        amountPaid := 0, amountRefunded := 0, expiresAt := e } s.invoices ∧
    s₂.usedNonces = s.usedNonces := by
  unfold createInvoice at h
  rcases hra : requireAuth env m with e₁ | u
  · rw [hra] at h
    simp at h
  rw [hra] at h
  split_ifs at h with h₁ h₂ <;> try exact Except.noConfusion h
  simp only [Except.ok.injEq, Prod.mk.injEq] at h
  obtain ⟨hs, hn⟩ := h
  subst hs
  exact ⟨by omega, rfl, rfl⟩

theorem createSigned_ok_shape {env : HostEnv} {xdr : XdrEnv}
    {c m : Address} {d : String} {a : Int} {t : Address}
    {n sig : List Nat} {s s₂ : ContractState} {nid : Nat}
    (h : createInvoiceSigned env xdr c m d a t n sig s =
      Except.ok (s₂, nid)) :
    0 < a ∧ assocGet (m, n) s.usedNonces = none ∧
    s₂.invoices = assocSet (s.invoiceCount + 1)
      { id := s.invoiceCount + 1, description := d, amount := a, token := t,
        status := .pending, merchantId := (assocGet m s.merchantIds).getD 0,
        payer := none, dateCreated := env.now, datePaid := none,
        amountPaid := 0, amountRefunded := 0, expiresAt := none }
      s.invoices ∧
    s₂.usedNonces = assocSet (m, n) true s.usedNonces := by
  unfold createInvoiceSigned at h
  by_cases hrole : ¬ (hasRole s c Role.manager ∨ hasRole s c Role.admin)
  · simp [hrole] at h
  simp only [hrole, if_false] at h
  rcases hra : requireAuth env c with e₁ | u
  · rw [hra] at h
    simp at h
  rw [hra] at h
  split_ifs at h with h₁ h₂ <;> try exact Except.noConfusion h
  rcases hv : verifyInvoiceSignature env xdr m d a t n sig s with e₂ | u₂
  · rw [hv] at h
    simp at h
  rw [hv] at h
  unfold invalidateNonce at h
  by_cases hnn : (assocGet (m, n) s.usedNonces).isSome = true
  · simp [hnn] at h
  simp only [hnn, Bool.false_eq_true, if_false] at h
  simp only [Except.ok.injEq, Prod.mk.injEq] at h
  obtain ⟨hs, hn⟩ := h
  subst hs
  refine ⟨by omega, ?_, rfl, rfl⟩
  rcases hx : assocGet (m, n) s.usedNonces with _ | b
  · rfl
  · rw [hx] at hnn
    simp at hnn

theorem void_ok_shape {env : HostEnv} {m : Address} {id : Nat}
    {s s₂ : ContractState}
    (h : voidInvoice env m id s = Except.ok s₂) :
    ∃ inv, assocGet id s.invoices = some inv ∧
      inv.status = InvoiceStatus.pending ∧
      s₂.invoices = assocSet id { inv with status := InvoiceStatus.cancelled }
        s.invoices ∧
      s₂.usedNonces = s.usedNonces := by
  unfold voidInvoice at h
  rcases hra : requireAuth env m with e₁ | u
  · rw [hra] at h
    simp at h
  rw [hra] at h
  rcases hin : assocGet id s.invoices with _ | inv
  · simp [getInvoice, hin] at h
  simp only [getInvoice, hin] at h
  rcases hmi : assocGet m s.merchantIds with _ | mid
  · simp [hmi] at h
  simp only [hmi] at h
  split_ifs at h with h₁ h₂ <;> try exact Except.noConfusion h
  simp only [Except.ok.injEq] at h
  subst h
  refine ⟨inv, rfl, by tauto, rfl, rfl⟩

theorem amend_ok_shape {env : HostEnv} {m : Address} {id : Nat}
    {na : Option Int} {nd : Option String} {s s₂ : ContractState}
    (h : amendInvoice env m id na nd s = Except.ok s₂) :
    ∃ inv inv₄, assocGet id s.invoices = some inv ∧
      inv.status = InvoiceStatus.pending ∧
      s₂.invoices = assocSet id inv₄ s.invoices ∧
      s₂.usedNonces = s.usedNonces ∧
      inv₄.status = InvoiceStatus.pending ∧
      inv₄.amountPaid = inv.amountPaid ∧
      inv₄.amountRefunded = inv.amountRefunded ∧
      (inv₄.amount = inv.amount ∨ 0 < inv₄.amount) := by
  unfold amendInvoice at h
  rcases hra : requireAuth env m with e₁ | u
  · rw [hra] at h
    simp at h
  rw [hra] at h
  rcases hin : assocGet id s.invoices with _ | inv
  · simp [getInvoice, hin] at h
  simp only [getInvoice, hin] at h
  rcases hmi : assocGet m s.merchantIds with _ | mid
  · simp [hmi] at h
  simp only [hmi] at h
  split_ifs at h with h₁ h₂ <;> try exact Except.noConfusion h
  rcases hna : na with _ | a₂
  · rcases hnd : nd with _ | d₂ <;>
      simp only [hna, hnd] at h <;>
      simp only [Except.ok.injEq] at h <;>
      subst h <;>
      exact ⟨inv, _, rfl, by tauto, rfl, rfl, by tauto, rfl, rfl, Or.inl rfl⟩
  · simp only [hna] at h
    by_cases ha₂ : a₂ ≤ 0
    · simp [ha₂] at h
    simp only [ha₂, if_false] at h
    rcases hnd : nd with _ | d₂ <;>
      simp only [hnd] at h <;>
      simp only [Except.ok.injEq] at h <;>
      subst h <;>
      exact ⟨inv, _, rfl, by tauto, rfl, rfl, by tauto, rfl, rfl,
        Or.inr (show (0 : Int) < a₂ by omega)⟩

theorem createPlan_fields {env : HostEnv} {m t : Address} {a : Int}
    {i : Nat} {s s₂ : ContractState} {pid : Nat}
    (h : createSubscriptionPlan env m t a i s = Except.ok (s₂, pid)) :
    s₂.invoices = s.invoices ∧ s₂.usedNonces = s.usedNonces := by
  unfold createSubscriptionPlan at h
  rcases hra : requireAuth env m with e₁ | u
  · rw [hra] at h
    simp at h
  rw [hra] at h
  split_ifs at h <;> try exact Except.noConfusion h
  simp only [Except.ok.injEq, Prod.mk.injEq] at h
  obtain ⟨hs, hp⟩ := h
  subst hs
  exact ⟨rfl, rfl⟩

theorem subscribe_fields {env : HostEnv} {c : Address} {pid : Nat}
    {s s₂ : ContractState} {sid : Nat}
    (h : subscribe env c pid s = Except.ok (s₂, sid)) :
    s₂.invoices = s.invoices ∧ s₂.usedNonces = s.usedNonces := by
  unfold subscribe at h
  rcases hra : requireAuth env c with e₁ | u
  · rw [hra] at h
    simp at h
  rw [hra] at h
  rcases hpl : loadPlan s pid with e₂ | plan
  · rw [hpl] at h
    simp at h
  rw [hpl] at h
  dsimp only at h
  split_ifs at h <;> try exact Except.noConfusion h
  simp only [Except.ok.injEq, Prod.mk.injEq] at h
  obtain ⟨hs, hp⟩ := h
  subst hs
  exact ⟨rfl, rfl⟩

theorem charge_fields {env : HostEnv} {sid : Nat} {s s₂ : ContractState}
    (h : chargeSubscription env sid s = Except.ok s₂) :
    s₂.invoices = s.invoices ∧ s₂.usedNonces = s.usedNonces := by
  unfold chargeSubscription at h
  rcases hls : loadSubscription s sid with e₁ | sub
  · rw [hls] at h
    simp at h
  rw [hls] at h
  dsimp only at h
  by_cases hst : sub.status ≠ SubscriptionStatus.active
  · simp [hst] at h
  simp only [hst, if_false] at h
  rcases hpl : loadPlan s sub.planId with e₂ | plan
  · rw [hpl] at h
    simp at h
  rw [hpl] at h
  dsimp only at h
  by_cases hiv : env.now < sub.lastChargeDate + plan.interval
  · simp [hiv] at h
  simp only [hiv, if_false] at h
  rcases hmi : assocGet plan.merchant s.merchantIds with _ | mid
  · simp [hmi] at h
  simp only [hmi] at h
  rcases hma : assocGet mid s.merchantAccounts with _ | macct
  · simp [hma] at h
  simp only [hma] at h
  by_cases hfe : 0 < (plan.amount * (assocGet plan.token s.feeBps).getD 0).tdiv 10000
  · simp only [hfe, if_true] at h
    rcases ht1 : tokenTransferFrom plan.token env.contractAddress
        sub.customer env.contractAddress
        ((plan.amount * (assocGet plan.token s.feeBps).getD 0).tdiv 10000)
        s with e₃ | s₁
    · rw [ht1] at h
      simp at h
    rw [ht1] at h
    dsimp only at h
    have hf1 := tokenTransferFrom_ok_fields ht1
    rcases ht2 : tokenTransferFrom plan.token env.contractAddress
        sub.customer macct
        (plan.amount -
          (plan.amount * (assocGet plan.token s.feeBps).getD 0).tdiv 10000)
        s₁ with e₄ | s₃
    · rw [ht2] at h
      simp at h
    rw [ht2] at h
    simp only [Except.ok.injEq] at h
    subst h
    have hf2 := tokenTransferFrom_ok_fields ht2
    exact ⟨by rw [hf2.1, hf1.1], by rw [hf2.2, hf1.2]⟩
  · simp only [hfe, if_false] at h
    try dsimp only at h
    rcases ht2 : tokenTransferFrom plan.token env.contractAddress
        sub.customer macct
        (plan.amount -
          (plan.amount * (assocGet plan.token s.feeBps).getD 0).tdiv 10000)
        s with e₄ | s₃
    · rw [ht2] at h
      simp at h
    rw [ht2] at h
    simp only [Except.ok.injEq] at h
    subst h
    have hf2 := tokenTransferFrom_ok_fields ht2
    exact ⟨by rw [hf2.1], by rw [hf2.2]⟩

theorem cancel_fields {env : HostEnv} {c : Address} {sid : Nat}
    {s s₂ : ContractState}
    (h : cancelSubscription env c sid s = Except.ok s₂) :
    s₂.invoices = s.invoices ∧ s₂.usedNonces = s.usedNonces := by
  unfold cancelSubscription at h
  rcases hra : requireAuth env c with e₁ | u
  · rw [hra] at h
    simp at h
  rw [hra] at h
  rcases hls : loadSubscription s sid with e₂ | sub
  · rw [hls] at h
    simp at h
  rw [hls] at h
  dsimp only at h
  rcases hpl : loadPlan s sub.planId with e₃ | plan
  · rw [hpl] at h
    simp at h
  rw [hpl] at h
  dsimp only at h
  split_ifs at h <;> try exact Except.noConfusion h
  simp only [Except.ok.injEq] at h
  subst h
  exact ⟨rfl, rfl⟩

theorem invalidateNonce_ok_shape {m : Address} {n : List Nat}
    {s s₂ : ContractState}
    (h : invalidateNonce m n s = Except.ok s₂) :
    assocGet (m, n) s.usedNonces = none ∧
    s₂.invoices = s.invoices ∧
    s₂.usedNonces = assocSet (m, n) true s.usedNonces := by
  unfold invalidateNonce at h
  split_ifs at h with h₁ <;> try exact Except.noConfusion h
  simp only [Except.ok.injEq] at h
  subst h
  refine ⟨?_, rfl, rfl⟩
  rcases hx : assocGet (m, n) s.usedNonces with _ | b
  · rfl
  · rw [hx] at h₁
    simp at h₁

theorem allInv_assocSet {invoices : List (Nat × Invoice)} {id : Nat}
    {inv₃ : Invoice}
    (hall : ∀ i inv, assocGet i invoices = some inv → invoiceInv inv)
    (hnew : invoiceInv inv₃) :
    ∀ i inv, assocGet i (assocSet id inv₃ invoices) = some inv →
      invoiceInv inv := by
  intro i inv hl
  by_cases hid : i = id
  · subst hid
    rw [assocGet_set_self] at hl
    cases hl
    exact hnew
  · rw [assocGet_set_other _ _ hid] at hl
    exact hall i inv hl

theorem payPartial_preserves {env : HostEnv} {p : Address} {id : Nat}
    {a : Int} {s s₁ : ContractState} {fee : Int}
    (hpp : (payInvoicePartial env p id a s).2 = Except.ok (s₁, fee))
    (hall : allInvoicesInv s) : allInvoicesInv s₁ := by
  obtain ⟨inv, inv₃, hin, hst', hamt, hfit, hinvs, hnn, ham, hap, har,
    hsif⟩ := payPartial_ok_shape hpp
  have hstore := hall _ _ hin
  have hnew : invoiceInv inv₃ := by
    by_cases hfull : inv.amountPaid + a = inv.amount
    · simp only [hfull, if_true] at hsif
      rcases hst' with h₀ | h₀
      · simp only [invoiceInv, h₀] at hstore
        simp only [invoiceInv, hsif, ham, hap, har]
        omega
      · simp only [invoiceInv, h₀] at hstore
        simp only [invoiceInv, hsif, ham, hap, har]
        omega
    · simp only [hfull, if_false] at hsif
      rcases hst' with h₀ | h₀
      · simp only [invoiceInv, h₀] at hstore
        simp only [invoiceInv, hsif, ham, hap, har]
        omega
      · simp only [invoiceInv, h₀] at hstore
        simp only [invoiceInv, hsif, ham, hap, har]
        omega
  intro i inv' hl
  rw [hinvs] at hl
  exact allInv_assocSet hall hnew i inv' hl

theorem refundPartial_preserves {env : HostEnv} {id : Nat} {a : Int}
    {s s₁ : ContractState}
    (hrp : refundInvoicePartial env id a s = Except.ok s₁)
    (hall : allInvoicesInv s) : allInvoicesInv s₁ := by
  obtain ⟨inv, hin, hst', hamt, hfit, hinvs, hnn⟩ :=
    refundPartial_ok_shape hrp
  have hstore := hall _ _ hin
  have hnew : invoiceInv
      { inv with
          amountRefunded := inv.amountRefunded + a,
          status :=
            if inv.amountRefunded + a = inv.amount then
              InvoiceStatus.refunded
            else InvoiceStatus.partiallyRefunded } := by
    by_cases hfull : inv.amountRefunded + a = inv.amount
    · rw [if_pos hfull]
      rcases hst' with h₀ | h₀ <;>
        simp only [invoiceInv, h₀] at hstore <;>
        simp only [invoiceInv] <;>
        omega
    · rw [if_neg hfull]
      rcases hst' with h₀ | h₀ <;>
        simp only [invoiceInv, h₀] at hstore <;>
        simp only [invoiceInv] <;>
        omega
  intro i inv' hl
  rw [hinvs] at hl
  exact allInv_assocSet hall hnew i inv' hl

theorem sysStep_preserves {env : HostEnv} {xdr : XdrEnv} {op : SysOp}
    {s s₂ : ContractState}
    (h : sysStep env xdr op s = Except.ok s₂)
    (hall : allInvoicesInv s) : allInvoicesInv s₂ := by
  cases op with
  | createInvoiceOp m d a t e =>
      simp only [sysStep] at h
      rcases hc : createInvoice env m d a t e s with e₁ | q
      · rw [hc] at h
        exact Except.noConfusion h
      rcases q with ⟨s₁, nid⟩
      rw [hc] at h
      simp only [Except.ok.injEq] at h
      subst h
      obtain ⟨ha, hinvs, hnn⟩ := create_ok_shape hc
      intro i inv' hl
      rw [hinvs] at hl
      refine allInv_assocSet hall ?_ i inv' hl
      simp only [invoiceInv]
      exact ⟨ha, by omega, by omega, by omega, by omega, trivial, trivial⟩
  | createInvoiceSignedOp c m d a t n sig =>
      simp only [sysStep] at h
      rcases hc : createInvoiceSigned env xdr c m d a t n sig s with e₁ | q
      · rw [hc] at h
        exact Except.noConfusion h
      rcases q with ⟨s₁, nid⟩
      rw [hc] at h
      simp only [Except.ok.injEq] at h
      subst h
      obtain ⟨ha, hno, hinvs, hnn⟩ := createSigned_ok_shape hc
      intro i inv' hl
      rw [hinvs] at hl
      refine allInv_assocSet hall ?_ i inv' hl
      simp only [invoiceInv]
      exact ⟨ha, by omega, by omega, by omega, by omega, trivial, trivial⟩
  | payInvoiceOp p id =>
      simp only [sysStep] at h
      rcases hc : (payInvoice env p id s).2 with e₁ | q
      · rw [hc] at h
        exact Except.noConfusion h
      rcases q with ⟨s₁, fee⟩
      rw [hc] at h
      simp only [Except.ok.injEq] at h
      subst h
      obtain ⟨amount, hpp⟩ := pay_ok_shape hc
      exact payPartial_preserves hpp hall
  | payInvoicePartialOp p id a =>
      simp only [sysStep] at h
      rcases hc : (payInvoicePartial env p id a s).2 with e₁ | q
      · rw [hc] at h
        exact Except.noConfusion h
      rcases q with ⟨s₁, fee⟩
      rw [hc] at h
      simp only [Except.ok.injEq] at h
      subst h
      exact payPartial_preserves hc hall
  | refundInvoiceOp m id =>
      simp only [sysStep] at h
      unfold refundInvoice at h
      rcases hra : requireAuth env m with e₁ | u
      · rw [hra] at h
        exact Except.noConfusion h
      rw [hra] at h
      rcases hin : assocGet id s.invoices with _ | inv
      · simp [getInvoice, hin] at h
      simp only [getInvoice, hin] at h
      rcases hmi : assocGet m s.merchantIds with _ | mid
      · simp [hmi] at h
      simp only [hmi] at h
      split_ifs at h <;> try exact Except.noConfusion h
      exact refundPartial_preserves h hall
  | refundInvoicePartialOp id a =>
      simp only [sysStep] at h
      exact refundPartial_preserves h hall
  | voidInvoiceOp m id =>
      simp only [sysStep] at h
      obtain ⟨inv, hin, hpend, hinvs, hnn⟩ := void_ok_shape h
      have hstore := hall _ _ hin
      intro i inv' hl
      rw [hinvs] at hl
      refine allInv_assocSet hall ?_ i inv' hl
      simp only [invoiceInv, hpend] at hstore
      simp only [invoiceInv]
      omega
  | amendInvoiceOp m id na nd =>
      simp only [sysStep] at h
      obtain ⟨inv, inv₄, hin, hpend, hinvs, hnn, hst₄, hap, har, hamr⟩ :=
        amend_ok_shape h
      have hstore := hall _ _ hin
      intro i inv' hl
      rw [hinvs] at hl
      refine allInv_assocSet hall ?_ i inv' hl
      simp only [invoiceInv, hpend] at hstore
      simp only [invoiceInv, hst₄, hap, har]
      rcases hamr with h₄ | h₄
      · rw [h₄]
        omega
      · omega
  | createPlanOp m t a i =>
      simp only [sysStep] at h
      rcases hc : createSubscriptionPlan env m t a i s with e₁ | q
      · rw [hc] at h
        exact Except.noConfusion h
      rcases q with ⟨s₁, pid⟩
      rw [hc] at h
      simp only [Except.ok.injEq] at h
      subst h
      have hf := createPlan_fields hc
      intro i₂ inv' hl
      rw [hf.1] at hl
      exact hall i₂ inv' hl
  | subscribeOp c pid =>
      simp only [sysStep] at h
      rcases hc : subscribe env c pid s with e₁ | q
      · rw [hc] at h
        exact Except.noConfusion h
      rcases q with ⟨s₁, sid⟩
      rw [hc] at h
      simp only [Except.ok.injEq] at h
      subst h
      have hf := subscribe_fields hc
      intro i₂ inv' hl
      rw [hf.1] at hl
      exact hall i₂ inv' hl
  | chargeSubscriptionOp sid =>
      simp only [sysStep] at h
      have hf := charge_fields h
      intro i₂ inv' hl
      rw [hf.1] at hl
      exact hall i₂ inv' hl
  | cancelSubscriptionOp c sid =>
      simp only [sysStep] at h
      have hf := cancel_fields h
      intro i₂ inv' hl
      rw [hf.1] at hl
      exact hall i₂ inv' hl
  | invalidateNonceOp m n =>
      simp only [sysStep] at h
      obtain ⟨hno, hinvs, hnn⟩ := invalidateNonce_ok_shape h
      intro i₂ inv' hl
      rw [hinvs] at hl
      exact hall i₂ inv' hl

theorem sysStep_nonce_monotone {env : HostEnv} {xdr : XdrEnv} {op : SysOp}
    {s s₂ : ContractState} {m : Address} {n : List Nat}
    (h : sysStep env xdr op s = Except.ok s₂)
    (hm : assocGet (m, n) s.usedNonces = some true) :
    assocGet (m, n) s₂.usedNonces = some true := by
  cases op with
  | createInvoiceOp m₁ d a t e =>
      simp only [sysStep] at h
      rcases hc : createInvoice env m₁ d a t e s with e₁ | q
      · rw [hc] at h
        exact Except.noConfusion h
      rcases q with ⟨s₁, nid⟩
      rw [hc] at h
      simp only [Except.ok.injEq] at h
      subst h
      rw [(create_ok_shape hc).2.2]
      exact hm
  | createInvoiceSignedOp c m₁ d a t n₁ sig =>
      simp only [sysStep] at h
      rcases hc : createInvoiceSigned env xdr c m₁ d a t n₁ sig s with e₁ | q
      · rw [hc] at h
        exact Except.noConfusion h
      rcases q with ⟨s₁, nid⟩
      rw [hc] at h
      simp only [Except.ok.injEq] at h
      subst h
      obtain ⟨ha, hno, hinvs, hnn⟩ := createSigned_ok_shape hc
      rw [hnn]
      by_cases hk : (m, n) = (m₁, n₁)
      · rw [← hk] at hno
        rw [hno] at hm
        exact Option.noConfusion hm
      · rw [assocGet_set_other _ _ hk]
        exact hm
  | payInvoiceOp p id =>
      simp only [sysStep] at h
      rcases hc : (payInvoice env p id s).2 with e₁ | q
      · rw [hc] at h
        exact Except.noConfusion h
      rcases q with ⟨s₁, fee⟩
      rw [hc] at h
      simp only [Except.ok.injEq] at h
      subst h
      obtain ⟨amount, hpp⟩ := pay_ok_shape hc
      obtain ⟨_, _, _, _, _, _, _, hnn, _⟩ := payPartial_ok_shape hpp
      rw [hnn]
      exact hm
  | payInvoicePartialOp p id a =>
      simp only [sysStep] at h
      rcases hc : (payInvoicePartial env p id a s).2 with e₁ | q
      · rw [hc] at h
        exact Except.noConfusion h
      rcases q with ⟨s₁, fee⟩
      rw [hc] at h
      simp only [Except.ok.injEq] at h
      subst h
      obtain ⟨_, _, _, _, _, _, _, hnn, _⟩ := payPartial_ok_shape hc
      rw [hnn]
      exact hm
  | refundInvoiceOp m₁ id =>
      simp only [sysStep] at h
      unfold refundInvoice at h
      rcases hra : requireAuth env m₁ with e₁ | u
      · rw [hra] at h
        exact Except.noConfusion h
      rw [hra] at h
      rcases hin : assocGet id s.invoices with _ | inv
      · simp [getInvoice, hin] at h
      simp only [getInvoice, hin] at h
      rcases hmi : assocGet m₁ s.merchantIds with _ | mid
      · simp [hmi] at h
      simp only [hmi] at h
      split_ifs at h <;> try exact Except.noConfusion h
      obtain ⟨_, _, _, _, _, _, hnn⟩ := refundPartial_ok_shape h
      rw [hnn]
      exact hm
  | refundInvoicePartialOp id a =>
      simp only [sysStep] at h
      obtain ⟨_, _, _, _, _, _, hnn⟩ := refundPartial_ok_shape h
      rw [hnn]
      exact hm
  | voidInvoiceOp m₁ id =>
      simp only [sysStep] at h
      obtain ⟨_, _, _, _, hnn⟩ := void_ok_shape h
      rw [hnn]
      exact hm
  | amendInvoiceOp m₁ id na nd =>
      simp only [sysStep] at h
      obtain ⟨_, _, _, _, _, hnn, _⟩ := amend_ok_shape h
      rw [hnn]
      exact hm
  | createPlanOp m₁ t a i =>
      simp only [sysStep] at h
      rcases hc : createSubscriptionPlan env m₁ t a i s with e₁ | q
      · rw [hc] at h
        exact Except.noConfusion h
      rcases q with ⟨s₁, pid⟩
      rw [hc] at h
      simp only [Except.ok.injEq] at h
      subst h
      rw [(createPlan_fields hc).2]
      exact hm
  | subscribeOp c pid =>
      simp only [sysStep] at h
      rcases hc : subscribe env c pid s with e₁ | q
      · rw [hc] at h
        exact Except.noConfusion h
      rcases q with ⟨s₁, sid⟩
      rw [hc] at h
      simp only [Except.ok.injEq] at h
      subst h
      rw [(subscribe_fields hc).2]
      exact hm
  | chargeSubscriptionOp sid =>
      simp only [sysStep] at h
      rw [(charge_fields h).2]
      exact hm
  | cancelSubscriptionOp c sid =>
      simp only [sysStep] at h
      rw [(cancel_fields h).2]
      exact hm
  | invalidateNonceOp m₁ n₁ =>
      simp only [sysStep] at h
      obtain ⟨hno, hinvs, hnn⟩ := invalidateNonce_ok_shape h
      rw [hnn]
      by_cases hk : (m, n) = (m₁, n₁)
      · rw [← hk] at hno
        rw [hno] at hm
        exact Option.noConfusion hm
      · rw [assocGet_set_other _ _ hk]
        exact hm

theorem invoiceInv_consistent {inv : Invoice} (h : invoiceInv inv) :
    invoiceConsistent inv := by
  obtain ⟨h₁, h₂, h₃, h₄, h₅, h₆⟩ := h
  cases hst : inv.status <;>
    simp only [hst] at h₆ <;>
    simp [invoiceConsistent, hst] <;>
    omega

theorem reach_allInv {s : ContractState} (h : ReachInv s) :
    allInvoicesInv s := by
  induction h with
  | init s h0 =>
      intro i inv hl
      rw [h0] at hl
      exact absurd hl (by simp [assocGet])
  | frame s s₂ hr he ih =>
      intro i inv hl
      rw [he] at hl
      exact ih i inv hl
  | step env xdr op s s₂ hr hstep ih => exact sysStep_preserves hstep ih

theorem natBeBytes_length (k n : Nat) : (natBeBytes k n).length = k := by
  induction k generalizing n with
  | zero => rfl
  | succ k ih => simp [natBeBytes, ih]

theorem beBytesToNat_natBeBytes (k n : Nat) :
    beBytesToNat (natBeBytes k n) = n % 256 ^ k := by
  induction k generalizing n with
  | zero => simp [natBeBytes, beBytesToNat, Nat.mod_one]
  | succ k ih =>
      rw [natBeBytes, beBytesToNat, natBeBytes_length, ih]
      rw [pow_succ, Nat.mod_mul]
      ring

set_option maxRecDepth 4000 in
theorem i128BeBytes_roundTrip (a : Int) (h₁ : -(2 ^ 127) ≤ a)
    (h₂ : a < 2 ^ 127) :
    (i128BeBytes a).length = 16 ∧ beBytesToI128 (i128BeBytes a) = a := by
  refine ⟨natBeBytes_length 16 _, ?_⟩
  unfold i128BeBytes beBytesToI128
  rw [beBytesToNat_natBeBytes]
  have h256 : (256 : Nat) ^ 16 = 2 ^ 128 := by norm_num
  rw [h256]
  split_ifs with hcs <;> omega

theorem tokenTransfer_error_any {tok src dst : Address} {amt : Int}
    {s : ContractState} {e : TxError}
    (h : tokenTransfer tok src dst amt s = Except.error e) :
    e = TxError.negativeAmount ∨ e = TxError.insufficientBalance := by
  unfold tokenTransfer at h
  split_ifs at h <;> simp_all

theorem payPartial_no_expiry_error {env : HostEnv} {payer : Address}
    {id : Nat} {amt : Int} {s : ContractState} {inv : Invoice} {e₁ : TxError}
    (hin : assocGet id s.invoices = some inv)
    (hexp : inv.expiresAt = none)
    (h : (payInvoicePartial env payer id amt s).2 = Except.error e₁) :
    e₁ ∈ [TxError.authRequired payer,
          TxError.contractErr ContractError.invalidAmount,
          TxError.contractErr ContractError.invalidInvoiceStatus,
          TxError.contractErr ContractError.tokenNotAccepted,
          TxError.contractErr ContractError.merchantAccountNotSet,
          TxError.negativeAmount, TxError.insufficientBalance,
          TxError.contractErr ContractError.notAuthorized] := by
  rcases hra : requireAuth env payer with e₀ | u
  · simp only [payInvoicePartial, hra] at h
    simp only [Except.error.injEq] at h
    have he₀ : e₀ = TxError.authRequired payer := by
      unfold requireAuth at hra
      split_ifs at hra
      simp only [Except.error.injEq] at hra
      exact hra.symm
    simp [← h, he₀]
  simp only [payInvoicePartial, hra] at h
  by_cases h₁ : amt ≤ 0
  · simp only [h₁, if_true] at h
    simp only [Except.error.injEq] at h
    simp [← h]
  simp only [h₁, if_false] at h
  simp only [getInvoice, hin] at h
  simp only [hexp, Bool.false_eq_true, if_false] at h
  by_cases hst : inv.status ≠ InvoiceStatus.pending ∧
      inv.status ≠ InvoiceStatus.partiallyPaid
  · simp [hst] at h
    simp_all
  simp only [hst, if_false] at h
  by_cases hov : inv.amount < inv.amountPaid + amt
  · simp [hov] at h
    simp_all
  simp only [hov, if_false] at h
  by_cases htk : ¬ isAcceptedToken s inv.token = true
  · simp [htk] at h
    simp_all
  simp only [htk, if_false] at h
  rcases hma : assocGet inv.merchantId s.merchantAccounts with _ | macct
  · simp only [getMerchantAccount, hma] at h
    simp only [Except.error.injEq] at h
    simp [← h]
  simp only [getMerchantAccount, hma] at h
  rcases htr : tokenTransfer inv.token payer macct
      (amt - getFeeForAmount s inv.token amt) s with e₂ | s₁
  · simp only [htr] at h
    simp only [Except.error.injEq] at h
    rcases tokenTransfer_error_any htr with h₃ | h₃ <;> simp [← h, h₃]
  simp only [htr] at h
  by_cases hfe : 0 < getFeeForAmount s inv.token amt
  · rcases htr2 : tokenTransfer inv.token payer env.contractAddress
        (getFeeForAmount s inv.token amt) s₁ with e₃ | s₃
    · simp only [hfe, if_true, htr2] at h
      simp only [Except.error.injEq] at h
      rcases tokenTransfer_error_any htr2 with h₃ | h₃ <;> simp [← h, h₃]
    simp only [hfe, if_true, htr2] at h
    rcases hp : inv.payer with _ | existing
    · simp only [hp] at h
      simp at h
    simp only [hp] at h
    by_cases hex : existing ≠ payer
    · simp [hex] at h
      simp_all
    · simp only [hex, if_false] at h
      simp at h
  · simp only [hfe, if_false] at h
    rcases hp : inv.payer with _ | existing
    · simp only [hp] at h
      simp at h
    simp only [hp] at h
    by_cases hex : existing ≠ payer
    · simp [hex] at h
      simp_all
    · simp only [hex, if_false] at h
      simp at h

/-! ### Claim C2: the error-code table -/

/-- Claim C2, counterexample.  The error enum does NOT assign
InvoiceAlreadyPaid = 15: code 15 belongs to MerchantAccountNotFound and
InvoiceAlreadyPaid carries code 19; moreover no variant of the enum carries
code 21, 25, 26 or 27. -/
theorem C2_counterexample :
    ContractError.code ContractError.invoiceAlreadyPaid = 19 ∧
    ContractError.code ContractError.merchantAccountNotFound = 15 ∧
    ContractError.all.filter (fun e => ContractError.code e = 21) = [] ∧
    ContractError.all.filter (fun e => ContractError.code e = 25) = [] ∧
    ContractError.all.filter (fun e => ContractError.code e = 26) = [] ∧
    ContractError.all.filter (fun e => ContractError.code e = 27) = [] := by
  repeat constructor

/-- Claim C2, amended.  The error enum assigns exactly the codes 1..20 of
errors.rs in source order (in particular 15 MerchantAccountNotFound,
19 InvoiceAlreadyPaid, 20 MerchantAccountNotSet); the enumeration
ContractError.all is complete, so no variant carries a code above 20 — the
spec's InvalidInterval = 21, SubscriptionNotActive = 25, ChargeTooEarly = 26
and InvoiceExpired = 27 do not exist in the enum. -/
theorem C2_codes :
    ContractError.all.map ContractError.code =
      [1, 2, 3, 4, 5, 6, 7, 8, 9, 10, 11, 12, 13, 14, 15, 16, 17, 18, 19, 20] ∧
    (∀ e : ContractError, e ∈ ContractError.all) ∧
    (∀ e : ContractError, ContractError.code e ≤ 20) := by
  refine ⟨by decide, fun e => by cases e <;> decide, fun e => by cases e <;> decide⟩

/-! ### Claim C3: first subscription charge -/

/-- Claim C3 (code_bug evidence).  On a never-charged Active subscription
(last_charge_date = 0) of a plan with interval 2 592 000 s, a charge at
ledger time 1000 FAILS with the interval error: the code enforces
now ≥ last_charge_date + interval unconditionally, with no
last_charged_at > 0 special case, so the first charge is not immediate —
it only succeeds once now reaches the plan interval itself, contradicting
the code's own comments and tests.  (The error is the undeclared
IntervalNotElapsed, not ChargeTooEarly = 26, which errors.rs never
defines.) -/
theorem C3_first_charge_blocked :
    assocGet 1 exSubState.subs = some exSub ∧
    exSub.lastChargeDate = 0 ∧
    exSub.status = SubscriptionStatus.active ∧
    exPlan.interval = 2592000 ∧
    exEnv.now = 1000 ∧
    chargeSubscription exEnv 1 exSubState =
      Except.error TxError.intervalNotElapsed ∧
    (chargeSubscription
        { exEnv with now := 2592000 } 1 exSubState).isOk = true := by
  refine ⟨by decide, by decide, by decide, by decide, by decide, by decide, by decide⟩

/-! ### Claim C4: subscribe requires customer authentication -/

/-- Claim C4, counterexample.  Plan 1 exists and is active, yet
`subscribe` by customer 40 — for whom the host grants no authorization —
fails with the host authorization error: the code's first action is
`customer.require_auth()`, so enrollment does NOT succeed without host
authentication from the customer. -/
theorem C4_counterexample :
    assocGet 1 exSubState.plans = some exPlan ∧
    exPlan.active = true ∧
    exEnv.auths.contains 40 = false ∧
    subscribe exEnv 40 1 exSubState =
      Except.error (TxError.authRequired 40) := by
  refine ⟨by decide, by decide, by decide, by decide⟩

/-- Claim C4, amended.  `subscribe(customer, plan_id)` requires host
authentication from the customer (`customer.require_auth()`); with that
authorization, enrollment into any existing active plan succeeds with no
further authorization check, storing an Active subscription with
last_charge_date = 0 under id SubscriptionCount + 1. -/
theorem C4_subscribe_auth (env : HostEnv) (customer : Address) (planId : Nat)
    (s : ContractState) (plan : SubscriptionPlan)
    (hauth : env.auths.contains customer = true)
    (hplan : assocGet planId s.plans = some plan)
    (hactive : plan.active = true) :
    subscribe env customer planId s =
      Except.ok
        ({ s with
            subs := assocSet (s.subCount + 1)
              { id := s.subCount + 1, planId := planId,
                customer := customer, lastChargeDate := 0,
                status := .active } s.subs,
            subCount := s.subCount + 1 }, s.subCount + 1) := by
  have hmem : customer ∈ env.auths := by simpa using hauth
  simp [subscribe, requireAuth, loadPlan, hmem, hplan, hactive]

/-- Claim C4, witness: the amended theorem at customer 30, plan 1 of
`exSubState`. -/
theorem C4_subscribe_auth_witness :
    (subscribe exEnv 30 1 exSubState).isOk = true := by
  rw [C4_subscribe_auth exEnv 30 1 exSubState exPlan (by decide) (by decide)
    (by decide)]
  rfl

/-! ### Claim C5: payer-mismatch check versus transfer order -/

/-- Claim C5, counterexample.  Invoice 1 has recorded payer 30; caller 31
(authorized, funded) attempts a partial payment of 100.  The call does
fail with NotAuthorized, but only AFTER issuing both token transfers
(95 to the escrow, 5 fee to the contract) — the payer-mismatch
precondition is NOT checked before the external token calls. -/
theorem C5_counterexample :
    exMismatchInv.payer = some 30 ∧
    payInvoicePartial exEnv 31 1 100 exMismatchState =
      ([ExtCall.transfer 100 31 20 95, ExtCall.transfer 100 31 99 5],
        Except.error (.contractErr .notAuthorized)) := by
  refine ⟨by decide, by decide⟩

/-- Claim C5, amended.  When the invoice's recorded payer differs from the
caller, pay_invoice_partial does fail with NotAuthorized — but the failure
is raised only AFTER the escrow transfer (and the fee transfer when the fee
is positive) have been issued to the token contract: the payer-mismatch
check sits after the external calls, not before them. -/
theorem C5_payer_mismatch_after_transfers (env : HostEnv) (payer : Address)
    (invoiceId : Nat) (amount : Int) (s : ContractState) (inv : Invoice)
    (p macct : Address)
    (hauth : payer ∈ env.auths)
    (hamt : 0 < amount)
    (hinv : assocGet invoiceId s.invoices = some inv)
    (hexp : inv.expiresAt = none)
    (hstatus : inv.status = InvoiceStatus.partiallyPaid)
    (hfits : inv.amountPaid + amount ≤ inv.amount)
    (htok : isAcceptedToken s inv.token = true)
    (hacct : assocGet inv.merchantId s.merchantAccounts = some macct)
    (hpayer : inv.payer = some p)
    (hne : p ≠ payer)
    (hmp : macct ≠ payer)
    (hfee0 : 0 ≤ getFeeForAmount s inv.token amount)
    (hfee1 : getFeeForAmount s inv.token amount ≤ amount)
    (hbal : amount ≤ balOf s inv.token payer) :
    payInvoicePartial env payer invoiceId amount s =
      (ExtCall.transfer inv.token payer macct
          (amount - getFeeForAmount s inv.token amount) ::
        (if 0 < getFeeForAmount s inv.token amount then
          [ExtCall.transfer inv.token payer env.contractAddress
              (getFeeForAmount s inv.token amount)]
         else []),
        Except.error (.contractErr .notAuthorized)) := by
  have h1 : ¬ amount ≤ 0 := by omega
  have h2 : ¬ inv.amount < inv.amountPaid + amount := by omega
  have hpm : payer ≠ macct := Ne.symm hmp
  have hneq : p ≠ payer := hne
  set fee := getFeeForAmount s inv.token amount with hfee
  have h3 : ¬ amount - fee < 0 := by omega
  have h4 : ¬ balOf s inv.token payer < amount - fee := by omega
  have hca : env.auths.contains payer = true := by simpa using hauth
  have h5 : ¬ fee < 0 := by omega
  have h6 : ¬ balOf s inv.token payer - (amount - fee) < fee := by omega
  simp only [balOf] at h4 h6
  rcases lt_or_le 0 fee with hf | hf
  · simp [payInvoicePartial, requireAuth, getInvoice, hinv, hca, hauth,
      h1, hexp, hstatus, htok, getMerchantAccount, hacct,
      tokenTransfer, balOf, assocGet, assocSet, Prod.mk.injEq, hpm, hmp,
      h2, h3, h4, h5, h6, hf, hneq, hpayer]
  · have h7 : ¬ 0 < fee := by omega
    simp [payInvoicePartial, requireAuth, getInvoice, hinv, hca, hauth,
      h1, hexp, hstatus, htok, getMerchantAccount, hacct,
      tokenTransfer, balOf, assocGet, assocSet, Prod.mk.injEq, hpm, hmp,
      h2, h3, h4, h5, h6, h7, hneq, hpayer]

/-- Claim C5, witness: the amended theorem at the concrete mismatch state
(recorded payer 30, caller 31). -/
theorem C5_payer_mismatch_after_transfers_witness :
    payInvoicePartial exEnv 31 1 100 exMismatchState =
      (ExtCall.transfer exMismatchInv.token 31 20
          (100 - getFeeForAmount exMismatchState exMismatchInv.token 100) ::
        (if 0 < getFeeForAmount exMismatchState exMismatchInv.token 100 then
          [ExtCall.transfer exMismatchInv.token 31 exEnv.contractAddress
              (getFeeForAmount exMismatchState exMismatchInv.token 100)]
         else []),
        Except.error (.contractErr .notAuthorized)) :=
  C5_payer_mismatch_after_transfers exEnv 31 1 100 exMismatchState
    exMismatchInv 30 20 (by decide) (by decide) (by decide) (by decide)
    (by decide) (by decide) (by decide) (by decide) (by decide) (by decide)
    (by decide) (by decide) (by decide) (by decide)

/-! ### Claim C6: permissionless partial refunds -/

/-- Claim C6, counterexample.  Invoice 1 is Paid, within the refund window,
the amount 100 is valid — yet the refund fails because its merchant id 2
has no merchant account bound: MerchantAccountNotSet is a failure cause the
claim's closed list omits. -/
theorem C6_counterexample :
    exNoAcctInv.status = InvoiceStatus.paid ∧
    exNoAcctInv.datePaid = some 900 ∧
    exEnv.now = 1000 ∧
    assocGet exNoAcctInv.merchantId exNoAcctState.merchantAccounts = none ∧
    refundInvoicePartial exEnv 1 100 exNoAcctState =
      Except.error (.contractErr .merchantAccountNotSet) := by
  refine ⟨by decide, by decide, by decide, by decide, by decide⟩

/-- Claim C6, amended.  refund_invoice_partial performs no caller
authentication or merchant-ownership check: its result is independent of
who the host authorized, every error it returns is invoice-not-found,
invalid status, refund-window expiry, invalid amount, missing merchant
account, or a token-side failure (restricted account, insufficient escrow),
the paused facade adds ContractPaused, and for a Paid or PartiallyRefunded
invoice within the window with a valid amount, a bound unrestricted
merchant account and sufficient escrow, the call succeeds for any invoker,
moving the funds from the merchant account to the stored payer. -/
theorem C6_refund_permissionless :
    (∀ n c a₁ a₂ f₁ f₂ id amt s,
      refundInvoicePartial ⟨n, c, a₁, f₁⟩ id amt s =
        refundInvoicePartial ⟨n, c, a₂, f₂⟩ id amt s) ∧
    (∀ env id amt s e, refundInvoicePartial env id amt s = Except.error e →
      e ∈ [TxError.contractErr ContractError.invoiceNotFound,
           TxError.contractErr ContractError.invalidInvoiceStatus,
           TxError.contractErr ContractError.refundPeriodExpired,
           TxError.contractErr ContractError.invalidAmount,
           TxError.contractErr ContractError.merchantAccountNotSet,
           TxError.accountRestricted, TxError.insufficientBalance]) ∧
    (∀ env id amt s, s.paused = true →
      shadeRefundInvoicePartial env id amt s =
        Except.error (.contractErr .contractPaused)) ∧
    (∀ env id amt s inv p macct,
      assocGet id s.invoices = some inv →
      (inv.status = InvoiceStatus.paid ∨
        inv.status = InvoiceStatus.partiallyRefunded) →
      (∀ dp, inv.datePaid = some dp →
        env.now - dp ≤ MAX_REFUND_DURATION) →
      0 < amt →
      inv.amountRefunded + amt ≤ inv.amount →
      inv.payer = some p →
      assocGet inv.merchantId s.merchantAccounts = some macct →
      s.restrictedAccounts.contains macct = false →
      amt ≤ balOf s inv.token macct →
      p ≠ macct →
      (refundInvoicePartial env id amt s).isOk = true ∧
      balOf (okSt (refundInvoicePartial env id amt s)) inv.token p =
        balOf s inv.token p + amt ∧
      balOf (okSt (refundInvoicePartial env id amt s)) inv.token macct =
        balOf s inv.token macct - amt ∧
      assocGet id (okSt (refundInvoicePartial env id amt s)).invoices =
        some { inv with
                amountRefunded := inv.amountRefunded + amt,
                status :=
                  if inv.amountRefunded + amt = inv.amount then
                    InvoiceStatus.refunded
                  else InvoiceStatus.partiallyRefunded }) := by
  refine ⟨fun n c a₁ a₂ f₁ f₂ id amt s => rfl, ?_, ?_,
    fun env id amt s inv p macct h1 h2 h3 h4 h5 h6 h7 h8 h9 h10 =>
      refundPartial_success env id amt s inv p macct h1 h2 h3 h4 h5 h6 h7
        h8 h9 h10⟩
  · intro env id amt s e h
    rcases hin : assocGet id s.invoices with _ | inv
    · simp [refundInvoicePartial, getInvoice, hin] at h
      simp_all
    · simp only [refundInvoicePartial, getInvoice, hin] at h
      split_ifs at h with hs hw ha hf
      · simp_all
      · simp_all
      · simp_all
      · simp_all
      · rcases hp : inv.payer with _ | p
        · simp [hp] at h
          simp_all
        · simp only [hp] at h
          rcases hma : assocGet inv.merchantId s.merchantAccounts with _ | macct
          · simp [getMerchantAccount, hma] at h
            simp_all
          · simp only [getMerchantAccount, hma] at h
            have h0 : (0 : Int) ≤ amt := by omega
            rcases escrowRefund_error h0 h with h₁ | h₁ <;> simp [h₁]
      · rcases hp : inv.payer with _ | p
        · simp [hp] at h
          simp_all
        · simp only [hp] at h
          rcases hma : assocGet inv.merchantId s.merchantAccounts with _ | macct
          · simp [getMerchantAccount, hma] at h
            simp_all
          · simp only [getMerchantAccount, hma] at h
            have h0 : (0 : Int) ≤ amt := by omega
            rcases escrowRefund_error h0 h with h₁ | h₁ <;> simp [h₁]
  · intro env id amt s h
    simp [shadeRefundInvoicePartial, assertNotPaused, h]

/-! ### Claim C1: pay then refund with a protocol fee -/

/-- Claim C1, counterexample.  With the 5% protocol fee, payer 30 fully
pays invoice 1 (950 to the escrow, 50 fee to the contract), yet
refund_invoice by the merchant within the window does NOT leave the payer
at start-minus-fee: it fails outright with a token-side insufficient
balance, because the code refunds the gross invoice amount from an escrow
that only ever received the net amount. -/
theorem C1_counterexample :
    getFeeForAmount exState 100 1000 = 50 ∧
    (payInvoice exEnv 30 1 exState).2.isOk = true ∧
    balOf exPaidState 100 30 = 0 ∧
    balOf exPaidState 100 20 = 950 ∧
    balOf exPaidState 100 99 = 50 ∧
    exEnv.now = 1000 ∧
    (assocGet 1 exPaidState.invoices).map Invoice.datePaid =
      some (some 1000) ∧
    refundInvoice exEnv 10 1 exPaidState =
      Except.error TxError.insufficientBalance := by
  refine ⟨by decide, by decide, by decide, by decide, by decide, by decide,
    by decide, by decide⟩

/-- Claim C1, amended.  The pay-then-refund round trip only balances when
the protocol fee is zero: for any positive amount A and starting payer
balance B ≥ A with a zero-fee token, pay_invoice then refund_invoice
within the window succeeds, restores the payer's balance to exactly B,
leaves the merchant account at zero, and marks the invoice Refunded.  (With
a positive fee the refund fails — see the counterexample — because the
gross amount is refunded out of an escrow holding only the net.) -/
theorem C1_zero_fee_round_trip (A B : Int) (hA : 0 < A) (hB : A ≤ B) :
    (payInvoice exEnv 30 1 (rtBase A B)).2.isOk = true ∧
    (refundInvoice exEnv 10 1 (rtPaid A B)).isOk = true ∧
    balOf (rtRefunded A B) 100 30 = B ∧
    balOf (rtRefunded A B) 100 20 = 0 ∧
    assocGet 1 (rtRefunded A B).invoices =
      some { exInv with
              amount := A, status := InvoiceStatus.refunded,
              payer := some 30, datePaid := some 1000, amountPaid := A,
              amountRefunded := A } := by
  have h1 : ¬ A ≤ 0 := by omega
  have h2 : ¬ A < 0 := by omega
  have h3 : ¬ B < A := by omega
  refine ⟨?_, ?_, ?_, ?_, ?_⟩ <;>
    simp [payInvoice, payInvoicePartial, refundInvoice, refundInvoicePartial,
      rtPaid, rtRefunded, okPayState, okSt, rtBase, exState, exInv, exEnv,
      requireAuth, getInvoice, getFeeForAmount, getMerchantAccount,
      isAcceptedToken, escrowRefund, tokenTransfer, balOf, assocGet,
      assocSet, MAX_REFUND_DURATION, h1, h2, h3, Except.isOk, Except.toBool]

/-- Claim C1, witness: the amended round trip at A = B = 1000. -/
theorem C1_zero_fee_round_trip_witness :
    (payInvoice exEnv 30 1 (rtBase 1000 1000)).2.isOk = true ∧
    (refundInvoice exEnv 10 1 (rtPaid 1000 1000)).isOk = true ∧
    balOf (rtRefunded 1000 1000) 100 30 = 1000 ∧
    balOf (rtRefunded 1000 1000) 100 20 = 0 ∧
    assocGet 1 (rtRefunded 1000 1000).invoices =
      some { exInv with
              amount := 1000, status := InvoiceStatus.refunded,
              payer := some 30, datePaid := some 1000, amountPaid := 1000,
              amountRefunded := 1000 } :=
  C1_zero_fee_round_trip 1000 1000 (by decide) (by decide)

/-! ### Claim C7: invoice state consistency -/

/-- Claim C7.  In every state reachable by the embedded entry points from
an invoice-free store, every stored invoice has 0 ≤ amount_paid ≤ amount
and 0 ≤ amount_refunded ≤ amount, and its status satisfies the four
biconditionals of the claim (Paid, PartiallyPaid, Refunded,
PartiallyRefunded each characterized by the amounts). -/
theorem C7_invoice_state_consistency (s : ContractState) (h : ReachInv s) :
    ∀ id inv, assocGet id s.invoices = some inv → invoiceConsistent inv :=
  fun _ inv hg => invoiceInv_consistent (reach_allInv h _ inv hg)

/-- Claim C7, witness: the invariant at the state reached by creating one
invoice in the empty store. -/
theorem C7_invoice_state_consistency_witness :
    invoiceConsistent exCreatedInv :=
  C7_invoice_state_consistency exCreatedState
    (ReachInv.step exEnv exXdr (SysOp.createInvoiceOp 10 "w" 500 100 none)
      exEmptyState exCreatedState (ReachInv.init exEmptyState rfl)
      (by decide))
    1 exCreatedInv (by decide)

/-! ### Claim C8: nonce invalidation and scoping -/

/-- Claim C8.  invalidate_nonce fails with NonceAlreadyUsed exactly when
UsedNonce(merchant, nonce) is set and otherwise records it true; the flag
is keyed by the (merchant, nonce) pair, so invalidating a nonce for one
merchant leaves every other merchant's entry for the same bytes untouched;
and across every embedded entry point, a used-nonce flag once set stays
set. -/
theorem C8_nonce_invalidation :
    (∀ m n s, (assocGet (m, n) s.usedNonces).isSome = true →
      invalidateNonce m n s =
        Except.error (.contractErr .nonceAlreadyUsed)) ∧
    (∀ m n s, assocGet (m, n) s.usedNonces = none →
      invalidateNonce m n s = Except.ok
        { s with usedNonces := assocSet (m, n) true s.usedNonces }) ∧
    (∀ m m₂ n s s₂, invalidateNonce m n s = Except.ok s₂ → m₂ ≠ m →
      assocGet (m₂, n) s₂.usedNonces = assocGet (m₂, n) s.usedNonces) ∧
    (∀ env xdr op s s₂ m n, sysStep env xdr op s = Except.ok s₂ →
      assocGet (m, n) s.usedNonces = some true →
      assocGet (m, n) s₂.usedNonces = some true) := by
  refine ⟨?_, ?_, ?_,
    fun env xdr op s s₂ m n h hm => sysStep_nonce_monotone h hm⟩
  · intro m n s h
    simp [invalidateNonce, h]
  · intro m n s h
    simp [invalidateNonce, h]
  · intro m m₂ n s s₂ h hne
    obtain ⟨-, -, hu⟩ := invalidateNonce_ok_shape h
    rw [hu]
    exact assocGet_set_other true s.usedNonces
      (fun hc => hne (congrArg Prod.fst hc))

/-! ### Claim C9: the canonical signed-invoice message -/

/-- Claim C9.  The message verified for a signed invoice is the
concatenation, in order, of the XDR of the current contract address, the
XDR of the merchant address, the raw nonce bytes, the 16 big-endian
two's-complement bytes of the i128 amount, the XDR of the token address
and the XDR of the description: build_message produces exactly that byte
string, verify_invoice_signature accepts exactly when the host Ed25519
check accepts the merchant key on it, and for every in-range i128 the
amount encoding is 16 bytes and decodes back to the amount. -/
theorem C9_message_layout :
    (∀ xdr c m d a t n, buildMessage xdr c m d a t n =
      xdr.addrXdr c ++ xdr.addrXdr m ++ n ++ i128BeBytes a
        ++ xdr.addrXdr t ++ xdr.strXdr d) ∧
    (∀ env xdr m d a t n sig s key,
      assocGet m s.merchantKeys = some key →
      (verifyInvoiceSignature env xdr m d a t n sig s = Except.ok () ↔
        env.ed25519Verify key
          (xdr.addrXdr env.contractAddress ++ xdr.addrXdr m ++ n
            ++ i128BeBytes a ++ xdr.addrXdr t ++ xdr.strXdr d) sig =
          true)) ∧
    (∀ a : Int, -(2 ^ 127) ≤ a → a < 2 ^ 127 →
      (i128BeBytes a).length = 16 ∧ beBytesToI128 (i128BeBytes a) = a) := by
  refine ⟨fun xdr c m d a t n => rfl, ?_,
    fun a h₁ h₂ => i128BeBytes_roundTrip a h₁ h₂⟩
  intro env xdr m d a t n sig s key hk
  simp only [verifyInvoiceSignature, hk, buildMessage]
  split_ifs with hv
  · simpa [List.append_assoc] using hv
  · simp only [Bool.not_eq_true] at hv
    simpa [List.append_assoc] using hv

/-! ### Claim C10: signed invoices carry no expiry -/

/-- Claim C10.  Every invoice created through create_invoice_signed is
stored with expires_at = None — the signed creation path accepts no expiry
input — so paying such an invoice can never fail with InvoiceExpired,
whereas create_invoice stores the caller-supplied optional expires_at. -/
theorem C10_signed_invoice_no_expiry :
    (∀ env xdr c m d a t n sig s s₂ nid,
      createInvoiceSigned env xdr c m d a t n sig s = Except.ok (s₂, nid) →
      ∃ inv, assocGet (s.invoiceCount + 1) s₂.invoices = some inv ∧
        inv.expiresAt = none) ∧
    (∀ env m d a t e s s₂ nid,
      createInvoice env m d a t e s = Except.ok (s₂, nid) →
      ∃ inv, assocGet (s.invoiceCount + 1) s₂.invoices = some inv ∧
        inv.expiresAt = e) ∧
    (∀ env payer id amt s inv e₁,
      assocGet id s.invoices = some inv → inv.expiresAt = none →
      (payInvoicePartial env payer id amt s).2 = Except.error e₁ →
      e₁ ≠ TxError.invoiceExpired) := by
  refine ⟨?_, ?_, ?_⟩
  · intro env xdr c m d a t n sig s s₂ nid h
    obtain ⟨-, -, hinv, -⟩ := createSigned_ok_shape h
    exact ⟨_, by rw [hinv]; exact assocGet_set_self _ _ _, rfl⟩
  · intro env m d a t e s s₂ nid h
    obtain ⟨-, hinv, -⟩ := create_ok_shape h
    exact ⟨_, by rw [hinv]; exact assocGet_set_self _ _ _, rfl⟩
  · intro env payer id amt s inv e₁ hin hexp h hc
    have hmem := payPartial_no_expiry_error hin hexp h
    subst hc
    simp at hmem

end Shade
